import Mathlib

/-!
Verification of the von-x Indy service (src/vonx/indy/service.py,
src/vonx/indy/config.py, src/vonx/indy/tob.py) against its
natural-language specification.

The Python code is shallowly embedded: configuration records become Lean
structures, the mutable status flags become explicit state threading, and
every external capability call (ledger, wallet, connector) is resolved
through an explicit environment of responses, so that each service routine
becomes a pure function of its starting state and the environment.
Python exceptions are modelled by an error type `PyErr`; routines that
mutate state before raising return the partially-updated state together
with the optional error, exactly mirroring in-place mutation.
Python truthiness of optional strings (`None` and `""` are falsy) is
modelled by `optTruthy`.
-/

/-- The exception kinds raised by the embedded code.
`IndyConfigError`, `ServiceSyncError`, `IndyError`, `IndyConnectionError`
are the repository's own classes; `typeError` stands for Python's
`TypeError`/`AttributeError` raised by `distutils` `LooseVersion`
comparisons on unparsable operands; `unboundLocalError` stands for
Python's `UnboundLocalError` (a local variable referenced before
assignment). -/
inductive PyErr where
  | indyConfigError (msg : String)
  | serviceSyncError (msg : String)
  | indyError (msg : String)
  | indyConnectionError (msg : String)
  | typeError
  | keyError
  | unboundLocalError
  deriving DecidableEq, Repr

/-- Result of an external capability call: the parsed response, or a raised
exception (for instance a connectivity failure). -/
inductive CallResult (α : Type) where
  | ok (a : α)
  | fail (e : PyErr)
  deriving DecidableEq, Repr

/-- Result of a ledger lookup which distinguishes "not found" (the
`AbsentSchema` / `AbsentCredDef` exceptions of the agent library, caught by
the caller) from any other failure (propagated). -/
inductive LookupResult (α : Type) where
  | absent
  | found (a : α)
  | fail (e : PyErr)
  deriving DecidableEq, Repr

/-- Python truthiness of an optional string: `None` and the empty string
are falsy. -/
def optTruthy : Option String → Bool
  | none => false
  | some s => !(s == "")

/-- `config.py` `SchemaCfg`: a credential schema definition.  Attribute
records are represented by their names (the code stores one small dict per
attribute, compared by equality). -/
structure SchemaCfg where
  name : String
  version : Option String
  attributes : List String
  origin_did : Option String
  deriving DecidableEq, Repr

/-- `config.py` `SchemaCfg.attr_names`: the attribute names only. -/
def SchemaCfg.attr_names (s : SchemaCfg) : List String := s.attributes

/-- `config.py` `SchemaCfg.compare`: wildcard-compatible schema matching.
Each clause mirrors one `if` statement of the source. -/
def SchemaCfg.compare (self other : SchemaCfg) : Bool :=
  if self.name ≠ other.name then false
  else if optTruthy self.version = true ∧ optTruthy other.version = true ∧
      self.version ≠ other.version then false
  else if optTruthy self.origin_did = true ∧ optTruthy other.origin_did = true ∧
      self.origin_did ≠ other.origin_did then false
  else if self.attributes ≠ [] ∧ other.attributes ≠ [] ∧
      self.attributes ≠ other.attributes then false
  else true

/-- The wildcard matching rule claimed by the spec for one field: the field
is absent (Python-falsy) on either side, or equal. -/
def fieldCompatible (a b : Option String) : Prop :=
  optTruthy a = false ∨ optTruthy b = false ∨ a = b

/-- The wildcard matching rule for the attribute list: absent (empty) on
either side, or equal. -/
def attrsCompatible (a b : List String) : Prop :=
  a = [] ∨ b = [] ∨ a = b

theorem SchemaCfg.compare_eq_true_iff (a b : SchemaCfg) :
    a.compare b = true ↔
      a.name = b.name ∧ fieldCompatible a.version b.version ∧
        fieldCompatible a.origin_did b.origin_did ∧
        attrsCompatible a.attributes b.attributes := by
  unfold SchemaCfg.compare fieldCompatible attrsCompatible
  split_ifs with h1 h2 h3 h4
  · simp only [false_iff]
    intro h
    exact h1 h.1
  · simp only [false_iff]
    rintro ⟨-, hv, -, -⟩
    rcases hv with hv | hv | hv
    · simp [h2.1] at hv
    · simp [h2.2.1] at hv
    · exact h2.2.2 hv
  · simp only [false_iff]
    rintro ⟨-, -, hv, -⟩
    rcases hv with hv | hv | hv
    · simp [h3.1] at hv
    · simp [h3.2.1] at hv
    · exact h3.2.2 hv
  · simp only [false_iff]
    rintro ⟨-, -, -, hv⟩
    rcases hv with hv | hv | hv
    · exact h4.1 hv
    · exact h4.2.1 hv
    · exact h4.2.2 hv
  · simp only [true_iff]
    push_neg at h1 h2 h3 h4
    refine ⟨h1, ?_, ?_, ?_⟩
    · by_cases hva : optTruthy a.version = true
      · by_cases hvb : optTruthy b.version = true
        · exact Or.inr (Or.inr (h2 hva hvb))
        · exact Or.inr (Or.inl (Bool.not_eq_true _ ▸ hvb))
      · exact Or.inl (Bool.not_eq_true _ ▸ hva)
    · by_cases hva : optTruthy a.origin_did = true
      · by_cases hvb : optTruthy b.origin_did = true
        · exact Or.inr (Or.inr (h3 hva hvb))
        · exact Or.inr (Or.inl (Bool.not_eq_true _ ▸ hvb))
      · exact Or.inl (Bool.not_eq_true _ ▸ hva)
    · by_cases hva : a.attributes = []
      · exact Or.inl hva
      · by_cases hvb : b.attributes = []
        · exact Or.inr (Or.inl hvb)
        · exact Or.inr (Or.inr (h4 hva hvb))

/-- C5: `SchemaCfg.compare(a, b)` returns true iff the names are equal and
each of version, origin DID and attribute list is absent on either side or
equal; consequently `compare` is reflexive and symmetric, and an absent
(wildcard) field never forces a mismatch. -/
theorem C5_compare_wildcard_spec :
    (∀ a b : SchemaCfg, a.compare b = true ↔
        a.name = b.name ∧ fieldCompatible a.version b.version ∧
          fieldCompatible a.origin_did b.origin_did ∧
          attrsCompatible a.attributes b.attributes) ∧
    (∀ a : SchemaCfg, a.compare a = true) ∧
    (∀ a b : SchemaCfg, a.compare b = b.compare a) := by
  refine ⟨SchemaCfg.compare_eq_true_iff, ?_, ?_⟩
  · intro a
    exact (SchemaCfg.compare_eq_true_iff a a).2
      ⟨rfl, Or.inr (Or.inr rfl), Or.inr (Or.inr rfl), Or.inr (Or.inr rfl)⟩
  · intro a b
    have hab := SchemaCfg.compare_eq_true_iff a b
    have hba := SchemaCfg.compare_eq_true_iff b a
    cases h1 : a.compare b <;> cases h2 : b.compare a
    · rfl
    · exfalso
      rw [h1] at hab
      rw [h2] at hba
      rcases hba.1 rfl with ⟨e1, e2, e3, e4⟩
      refine Bool.false_ne_true (hab.2 ⟨e1.symm, ?_, ?_, ?_⟩)
      · rcases e2 with h | h | h
        exacts [Or.inr (Or.inl h), Or.inl h, Or.inr (Or.inr h.symm)]
      · rcases e3 with h | h | h
        exacts [Or.inr (Or.inl h), Or.inl h, Or.inr (Or.inr h.symm)]
      · rcases e4 with h | h | h
        exacts [Or.inr (Or.inl h), Or.inl h, Or.inr (Or.inr h.symm)]
    · exfalso
      rw [h1] at hab
      rw [h2] at hba
      rcases hab.1 rfl with ⟨e1, e2, e3, e4⟩
      refine Bool.false_ne_true (hba.2 ⟨e1.symm, ?_, ?_, ?_⟩)
      · rcases e2 with h | h | h
        exacts [Or.inr (Or.inl h), Or.inl h, Or.inr (Or.inr h.symm)]
      · rcases e3 with h | h | h
        exacts [Or.inr (Or.inl h), Or.inl h, Or.inr (Or.inr h.symm)]
      · rcases e4 with h | h | h
        exacts [Or.inr (Or.inl h), Or.inl h, Or.inr (Or.inr h.symm)]
    · rfl

/-!
## `distutils` `LooseVersion`

`SchemaManager.find` orders versions with `LooseVersion`.  A version string
is split into numeric components, lowercase-alphabetic components and
remnant components ('.' separators are dropped); purely numeric components
become integers.  Comparison is Python list comparison, which raises
`TypeError` on an `int`-vs-`str` component pair, and `LooseVersion` of a
falsy vstring never parses and raises `AttributeError` when compared.
-/

/-- Three-way comparison derived from a linear order (how Python compares
two ints, or two strings by code point). -/
def linCmp {α : Type} [LinearOrder α] (a b : α) : Ordering :=
  if a < b then .lt else if b < a then .gt else .eq

theorem linCmp_self {α : Type} [LinearOrder α] (a : α) : linCmp a a = .eq := by
  unfold linCmp
  rw [if_neg (lt_irrefl a), if_neg (lt_irrefl a)]

theorem linCmp_lt_iff {α : Type} [LinearOrder α] {a b : α} :
    linCmp a b = .lt ↔ a < b := by
  unfold linCmp
  split_ifs with h1 h2
  · exact iff_of_true rfl h1
  · exact iff_of_false (by decide) h1
  · exact iff_of_false (by decide) h1

theorem linCmp_eq_imp {α : Type} [LinearOrder α] {a b : α}
    (h : linCmp a b = .eq) : a = b := by
  unfold linCmp at h
  split_ifs at h with h1 h2
  exact le_antisymm (not_lt.1 h2) (not_lt.1 h1)

theorem linCmp_swap {α : Type} [LinearOrder α] (a b : α) :
    linCmp b a = (linCmp a b).swap := by
  unfold linCmp
  rcases lt_trichotomy a b with h | h | h
  · rw [if_neg (lt_asymm h), if_pos h, if_pos h]
    rfl
  · subst h
    rw [if_neg (lt_irrefl a), if_neg (lt_irrefl a)]
    rfl
  · rw [if_pos h, if_neg (lt_asymm h), if_pos h]
    rfl

theorem linCmp_lt_trans {α : Type} [LinearOrder α] {a b c : α}
    (h1 : linCmp a b = .lt) (h2 : linCmp b c = .lt) : linCmp a c = .lt :=
  linCmp_lt_iff.2 (lt_trans (linCmp_lt_iff.1 h1) (linCmp_lt_iff.1 h2))

/-- Python comparison of two lists under an elementwise comparison:
elements are compared left to right, the first difference decides, and a
proper prefix is smaller. -/
def cmpList {α : Type} (c : α → α → Ordering) : List α → List α → Ordering
  | [], [] => .eq
  | [], _ :: _ => .lt
  | _ :: _, [] => .gt
  | x :: xs, y :: ys =>
    match c x y with
    | .eq => cmpList c xs ys
    | o => o

theorem cmpList_self {α : Type} (c : α → α → Ordering)
    (hself : ∀ a, c a a = .eq) : ∀ l, cmpList c l l = .eq := by
  intro l
  induction l with
  | nil => rfl
  | cons x xs ih =>
    unfold cmpList
    rw [hself x]
    exact ih

theorem cmpList_eq_imp {α : Type} (c : α → α → Ordering)
    (heq : ∀ a b, c a b = .eq → a = b) :
    ∀ {x y : List α}, cmpList c x y = .eq → x = y := by
  intro x
  induction x with
  | nil =>
    intro y h
    cases y with
    | nil => rfl
    | cons b ys => simp [cmpList] at h
  | cons a xs ih =>
    intro y h
    cases y with
    | nil => simp [cmpList] at h
    | cons b ys =>
      unfold cmpList at h
      cases hc : c a b with
      | eq =>
        rw [hc] at h
        rw [heq a b hc, ih h]
      | lt => rw [hc] at h; simp at h
      | gt => rw [hc] at h; simp at h

theorem cmpList_swap {α : Type} (c : α → α → Ordering)
    (hswap : ∀ a b, c b a = (c a b).swap) :
    ∀ x y : List α, cmpList c y x = (cmpList c x y).swap := by
  intro x
  induction x with
  | nil =>
    intro y
    cases y with
    | nil => rfl
    | cons b ys => rfl
  | cons a xs ih =>
    intro y
    cases y with
    | nil => rfl
    | cons b ys =>
      show cmpList c (b :: ys) (a :: xs) = (cmpList c (a :: xs) (b :: ys)).swap
      unfold cmpList
      rw [hswap a b]
      cases hc : c a b with
      | eq => exact ih ys
      | lt => rfl
      | gt => rfl

theorem cmpList_lt_trans {α : Type} (c : α → α → Ordering)
    (heq : ∀ a b, c a b = .eq → a = b)
    (htr : ∀ {a b d : α}, c a b = .lt → c b d = .lt → c a d = .lt) :
    ∀ {x y z : List α}, cmpList c x y = .lt → cmpList c y z = .lt →
      cmpList c x z = .lt := by
  intro x
  induction x with
  | nil =>
    intro y z h1 h2
    cases y with
    | nil => simp [cmpList] at h1
    | cons b ys =>
      cases z with
      | nil => simp [cmpList] at h2
      | cons d zs => rfl
  | cons a xs ih =>
    intro y z h1 h2
    cases y with
    | nil => simp [cmpList] at h1
    | cons b ys =>
      cases z with
      | nil => simp [cmpList] at h2
      | cons d zs =>
        unfold cmpList at h1 h2 ⊢
        cases hab : c a b with
        | gt => rw [hab] at h1; simp at h1
        | eq =>
          rw [hab] at h1
          have hb := heq a b hab
          subst hb
          cases had : c a d with
          | eq => rw [had] at h2; exact ih h1 h2
          | lt => rfl
          | gt => rw [had] at h2; simp at h2
        | lt =>
          rw [hab] at h1
          cases hbd : c b d with
          | eq =>
            have hd := heq b d hbd
            subst hd
            rw [hab]
          | lt => rw [htr hab hbd]
          | gt => rw [hbd] at h2; simp at h2

/-- Python string comparison: lexicographic by code point. -/
def strCmp (a b : String) : Ordering := cmpList linCmp a.data b.data

theorem strCmp_self (a : String) : strCmp a a = .eq :=
  cmpList_self linCmp linCmp_self a.data

theorem strCmp_eq_imp {a b : String} (h : strCmp a b = .eq) : a = b := by
  have hd := cmpList_eq_imp linCmp (fun _ _ hh => linCmp_eq_imp hh) h
  cases a
  cases b
  exact congrArg String.mk hd

theorem strCmp_swap (a b : String) : strCmp b a = (strCmp a b).swap :=
  cmpList_swap linCmp linCmp_swap a.data b.data

theorem strCmp_lt_trans {a b c : String} (h1 : strCmp a b = .lt)
    (h2 : strCmp b c = .lt) : strCmp a c = .lt :=
  cmpList_lt_trans linCmp (fun _ _ hh => linCmp_eq_imp hh)
    (fun hx hy => linCmp_lt_trans hx hy) h1 h2

/-- One parsed component of a `LooseVersion`: an integer component or a
string component. -/
inductive LVPart where
  | num (n : Nat)
  | alpha (s : String)
  deriving DecidableEq, Repr

/-- Python comparison of two `LooseVersion` components; `none` models the
`TypeError` raised when ordering an `int` against a `str`. -/
def lvPartCmp : LVPart → LVPart → Option Ordering
  | .num a, .num b => some (linCmp a b)
  | .alpha a, .alpha b => some (strCmp a b)
  | .num _, .alpha _ => none
  | .alpha _, .num _ => none

theorem lvPartCmp_self (a : LVPart) : lvPartCmp a a = some .eq := by
  cases a with
  | num n => simp [lvPartCmp, linCmp_self]
  | alpha s => simp [lvPartCmp, strCmp_self]

theorem lvPartCmp_eq_imp {a b : LVPart} (h : lvPartCmp a b = some .eq) :
    a = b := by
  cases a <;> cases b <;> simp [lvPartCmp] at h ⊢
  · exact linCmp_eq_imp h
  · exact strCmp_eq_imp h

theorem lvPartCmp_swap (a b : LVPart) :
    lvPartCmp b a = (lvPartCmp a b).map Ordering.swap := by
  cases a <;> cases b <;> simp [lvPartCmp]
  · exact linCmp_swap _ _
  · exact strCmp_swap _ _

theorem lvPartCmp_lt_trans {a b c : LVPart} (h1 : lvPartCmp a b = some .lt)
    (h2 : lvPartCmp b c = some .lt) : lvPartCmp a c = some .lt := by
  cases a <;> cases b <;> cases c <;> simp [lvPartCmp] at h1 h2 ⊢
  · exact linCmp_lt_trans h1 h2
  · exact strCmp_lt_trans h1 h2

/-- Python comparison of two parsed `LooseVersion` component lists; `none`
models a raised `TypeError`. -/
def lvListCmp : List LVPart → List LVPart → Option Ordering
  | [], [] => some .eq
  | [], _ :: _ => some .lt
  | _ :: _, [] => some .gt
  | x :: xs, y :: ys =>
    match lvPartCmp x y with
    | none => none
    | some .eq => lvListCmp xs ys
    | some o => some o

theorem lvListCmp_self : ∀ l, lvListCmp l l = some .eq := by
  intro l
  induction l with
  | nil => rfl
  | cons x xs ih =>
    unfold lvListCmp
    rw [lvPartCmp_self x]
    exact ih

theorem lvListCmp_eq_imp : ∀ {x y : List LVPart},
    lvListCmp x y = some .eq → x = y := by
  intro x
  induction x with
  | nil =>
    intro y h
    cases y with
    | nil => rfl
    | cons b ys => simp [lvListCmp] at h
  | cons a xs ih =>
    intro y h
    cases y with
    | nil => simp [lvListCmp] at h
    | cons b ys =>
      unfold lvListCmp at h
      cases hc : lvPartCmp a b with
      | none => rw [hc] at h; simp at h
      | some o =>
        cases o with
        | eq =>
          rw [hc] at h
          rw [lvPartCmp_eq_imp hc, ih h]
        | lt => rw [hc] at h; simp at h
        | gt => rw [hc] at h; simp at h

theorem lvListCmp_swap : ∀ x y : List LVPart,
    lvListCmp y x = (lvListCmp x y).map Ordering.swap := by
  intro x
  induction x with
  | nil =>
    intro y
    cases y with
    | nil => rfl
    | cons b ys => rfl
  | cons a xs ih =>
    intro y
    cases y with
    | nil => rfl
    | cons b ys =>
      show lvListCmp (b :: ys) (a :: xs) = (lvListCmp (a :: xs) (b :: ys)).map Ordering.swap
      unfold lvListCmp
      rw [lvPartCmp_swap a b]
      cases hc : lvPartCmp a b with
      | none => rfl
      | some o =>
        cases o with
        | eq => exact ih ys
        | lt => rfl
        | gt => rfl

theorem lvListCmp_lt_trans : ∀ {x y z : List LVPart},
    lvListCmp x y = some .lt → lvListCmp y z = some .lt →
      lvListCmp x z = some .lt := by
  intro x
  induction x with
  | nil =>
    intro y z h1 h2
    cases y with
    | nil => simp [lvListCmp] at h1
    | cons b ys =>
      cases z with
      | nil => simp [lvListCmp] at h2
      | cons d zs => rfl
  | cons a xs ih =>
    intro y z h1 h2
    cases y with
    | nil => simp [lvListCmp] at h1
    | cons b ys =>
      cases z with
      | nil => simp [lvListCmp] at h2
      | cons d zs =>
        unfold lvListCmp at h1 h2 ⊢
        cases hab : lvPartCmp a b with
        | none => rw [hab] at h1; simp at h1
        | some oab =>
          cases oab with
          | gt => rw [hab] at h1; simp at h1
          | eq =>
            rw [hab] at h1
            have hb := lvPartCmp_eq_imp hab
            subst hb
            cases had : lvPartCmp a d with
            | none => rw [had] at h2; simp at h2
            | some oad =>
              cases oad with
              | eq => rw [had] at h2; exact ih h1 h2
              | lt => rfl
              | gt => rw [had] at h2; simp at h2
          | lt =>
            rw [hab] at h1
            cases hbd : lvPartCmp b d with
            | none => rw [hbd] at h2; simp at h2
            | some obd =>
              cases obd with
              | eq =>
                have hd := lvPartCmp_eq_imp hbd
                subst hd
                rw [hab]
              | lt => rw [lvPartCmp_lt_trans hab hbd]
              | gt => rw [hbd] at h2; simp at h2

/-- Character class used by the `LooseVersion` component pattern: digit
runs, lowercase runs and '.' are matches; any other character belongs to a
remnant run kept as a string component. -/
def lvClass (c : Char) : Nat :=
  if c.isDigit then 0
  else if 'a' ≤ c ∧ c ≤ 'z' then 1
  else if c = '.' then 2
  else 3

/-- Group consecutive characters of the same class. -/
def lvGroups : List Char → List (Nat × List Char)
  | [] => []
  | c :: rest =>
    match lvGroups rest with
    | [] => [(lvClass c, [c])]
    | (k, g) :: gs =>
      if lvClass c = k then (k, c :: g) :: gs
      else (lvClass c, [c]) :: (k, g) :: gs

/-- Decimal value of a digit run (Python `int` conversion). -/
def digitsVal (l : List Char) : Nat :=
  l.foldl (fun acc c => acc * 10 + (c.toNat - 48)) 0

/-- Parse a version string the way `LooseVersion.parse` does: split into
digit runs (converted to integers), lowercase runs and remnant runs,
dropping the '.' separators. -/
def lvParse (s : String) : List LVPart :=
  (lvGroups s.data).filterMap fun kg =>
    if kg.1 = 0 then some (LVPart.num (digitsVal kg.2))
    else if kg.1 = 2 then none
    else some (LVPart.alpha (String.mk kg.2))

/-- The three-way comparison of two optional version strings through
`LooseVersion`; `none` models a raised exception: `LooseVersion` of a falsy
vstring (`None` or `""`) never runs `parse` and comparing it raises
`AttributeError`, and an `int`-vs-`str` component pair raises `TypeError`. -/
def lvCmpOpt : Option String → Option String → Option Ordering
  | some a, some b =>
    if a = "" ∨ b = "" then none
    else lvListCmp (lvParse a) (lvParse b)
  | some _, none => none
  | none, _ => none

/-- The Boolean test `LooseVersion(a) < LooseVersion(b)` used by
`SchemaManager.find`; `none` models a raised exception. -/
def lvLtOpt (a b : Option String) : Option Bool :=
  (lvCmpOpt a b).map (fun o => o == Ordering.lt)

theorem lvCmpOpt_self {v : Option String} (h : (lvCmpOpt v v).isSome = true) :
    lvCmpOpt v v = some .eq := by
  cases v with
  | none => simp [lvCmpOpt] at h
  | some s =>
    simp only [lvCmpOpt] at h ⊢
    by_cases hs : s = "" ∨ s = ""
    · rw [if_pos hs] at h
      simp at h
    · rw [if_neg hs]
      exact lvListCmp_self (lvParse s)

theorem lvCmpOpt_lt_trans {a b c : Option String}
    (h1 : lvCmpOpt a b = some .lt) (h2 : lvCmpOpt b c = some .lt) :
    lvCmpOpt a c = some .lt := by
  cases a with
  | none => simp [lvCmpOpt] at h1
  | some sa =>
    cases b with
    | none => simp [lvCmpOpt] at h1
    | some sb =>
      cases c with
      | none => simp [lvCmpOpt] at h2
      | some sc =>
        simp only [lvCmpOpt] at h1 h2 ⊢
        by_cases ha : sa = ""
        · rw [if_pos (Or.inl ha)] at h1
          exact Option.noConfusion h1
        · by_cases hb : sb = ""
          · rw [if_pos (Or.inr hb)] at h1
            exact Option.noConfusion h1
          · by_cases hc : sc = ""
            · rw [if_pos (Or.inr hc)] at h2
              exact Option.noConfusion h2
            · rw [if_neg (by simp [ha, hb])] at h1
              rw [if_neg (by simp [hb, hc])] at h2
              rw [if_neg (by simp [ha, hc])]
              exact lvListCmp_lt_trans h1 h2

theorem lvCmpOpt_notlt_trans {a b c : Option String} {o1 o2 o3 : Ordering}
    (h1 : lvCmpOpt a b = some o1) (hn1 : o1 ≠ .lt)
    (h2 : lvCmpOpt b c = some o2) (hn2 : o2 ≠ .lt)
    (h3 : lvCmpOpt a c = some o3) : o3 ≠ .lt := by
  intro hlt
  subst hlt
  cases a with
  | none => simp [lvCmpOpt] at h1
  | some sa =>
    cases b with
    | none => simp [lvCmpOpt] at h1
    | some sb =>
      cases c with
      | none => simp [lvCmpOpt] at h2
      | some sc =>
        simp only [lvCmpOpt] at h1 h2 h3
        by_cases ha : sa = ""
        · rw [if_pos (Or.inl ha)] at h1
          exact Option.noConfusion h1
        · by_cases hb : sb = ""
          · rw [if_pos (Or.inr hb)] at h1
            exact Option.noConfusion h1
          · by_cases hc : sc = ""
            · rw [if_pos (Or.inr hc)] at h2
              exact Option.noConfusion h2
            · rw [if_neg (by simp [ha, hb])] at h1
              rw [if_neg (by simp [hb, hc])] at h2
              rw [if_neg (by simp [ha, hc])] at h3
              cases o2 with
              | lt => exact hn2 rfl
              | eq =>
                have hbc := lvListCmp_eq_imp h2
                rw [← hbc] at h3
                rw [h1] at h3
                exact hn1 (Option.some.inj h3)
              | gt =>
                have hswap := lvListCmp_swap (lvParse sb) (lvParse sc)
                rw [h2] at hswap
                have hcb : lvListCmp (lvParse sc) (lvParse sb) = some .lt := hswap
                have h1lt := lvListCmp_lt_trans h3 hcb
                rw [h1] at h1lt
                exact hn1 (Option.some.inj h1lt)

theorem lvLtOpt_self {v : Option String} (h : (lvLtOpt v v).isSome = true) :
    lvLtOpt v v = some false := by
  unfold lvLtOpt at h ⊢
  rw [lvCmpOpt_self (by simpa using h)]
  rfl

theorem lvLtOpt_true_trans {a b c : Option String}
    (h1 : lvLtOpt a b = some true) (h2 : lvLtOpt b c = some true) :
    lvLtOpt a c = some true := by
  unfold lvLtOpt at h1 h2 ⊢
  rw [Option.map_eq_some'] at h1 h2
  obtain ⟨o1, ho1, hb1⟩ := h1
  obtain ⟨o2, ho2, hb2⟩ := h2
  have e1 : o1 = Ordering.lt := by
    cases o1
    · rfl
    · exact absurd hb1 (by decide)
    · exact absurd hb1 (by decide)
  have e2 : o2 = Ordering.lt := by
    cases o2
    · rfl
    · exact absurd hb2 (by decide)
    · exact absurd hb2 (by decide)
  subst e1
  subst e2
  rw [lvCmpOpt_lt_trans ho1 ho2]
  rfl

theorem lvLtOpt_false_trans {a b c : Option String}
    (h1 : lvLtOpt a b = some false) (h2 : lvLtOpt b c = some false)
    (h3 : (lvLtOpt a c).isSome = true) : lvLtOpt a c = some false := by
  unfold lvLtOpt at h1 h2 h3 ⊢
  rw [Option.map_eq_some'] at h1 h2
  obtain ⟨o1, ho1, hb1⟩ := h1
  obtain ⟨o2, ho2, hb2⟩ := h2
  have hn1 : o1 ≠ Ordering.lt := by
    intro hh
    subst hh
    exact absurd hb1 (by decide)
  have hn2 : o2 ≠ Ordering.lt := by
    intro hh
    subst hh
    exact absurd hb2 (by decide)
  rw [Option.isSome_map'] at h3
  rw [Option.isSome_iff_exists] at h3
  obtain ⟨o3, ho3⟩ := h3
  have hn3 := lvCmpOpt_notlt_trans ho1 hn1 ho2 hn2 ho3
  rw [ho3]
  cases o3 with
  | lt => exact absurd rfl hn3
  | eq => rfl
  | gt => rfl

/-!
## `SchemaManager` (config.py)

The manager state is the `_schemas` list in insertion order.
-/

/-- `config.py` `SchemaManager.find`: the loop over `self._schemas` with
its running `found` accumulator.  With a version argument the first exact
(name, version) match is returned immediately; without one, the same-named
schema with the highest `LooseVersion` so far is retained.  An `.error`
result models a Python exception escaping `find`. -/
def findLoop (name : String) (version : Option String) :
    List SchemaCfg → Option SchemaCfg → Except PyErr (Option SchemaCfg)
  | [], found => Except.ok found
  | s :: rest, found =>
    if s.name = name then
      match version with
      | some v =>
        if s.version = some v then Except.ok (some s)
        else findLoop name version rest found
      | none =>
        match found with
        | none => findLoop name version rest (some s)
        | some f =>
          match lvLtOpt f.version s.version with
          | none => Except.error PyErr.typeError
          | some true => findLoop name version rest (some s)
          | some false => findLoop name version rest (some f)
    else findLoop name version rest found

/-- `config.py` `SchemaManager.find`. -/
def SchemaManager.find (schemas : List SchemaCfg) (name : String)
    (version : Option String) : Except PyErr (Option SchemaCfg) :=
  findLoop name version schemas none

/-- `config.py` `SchemaManager.add_schema` for an already-constructed
`SchemaCfg` argument: duplicate detection reuses `find` with the new
schema's own name and version; on a match, `override` removes the matched
schema and appends the new one, otherwise a duplicate-definition
configuration error is raised. -/
def SchemaManager.add_schema (schemas : List SchemaCfg) (schema : SchemaCfg)
    (override : Bool) : Except PyErr (List SchemaCfg) :=
  match SchemaManager.find schemas schema.name schema.version with
  | Except.error e => Except.error e
  | Except.ok (some found) =>
    if override then Except.ok (schemas.erase found ++ [schema])
    else Except.error (PyErr.indyConfigError "Duplicate schema definition")
  | Except.ok none => Except.ok (schemas ++ [schema])

/-- The stored schemas bearing a given name, in storage order. -/
def sameNamed (schemas : List SchemaCfg) (name : String) : List SchemaCfg :=
  schemas.filter fun s => s.name == name

theorem sameNamed_nil (name : String) : sameNamed [] name = [] := rfl

theorem sameNamed_cons_pos {s : SchemaCfg} {name : String}
    (h : s.name = name) (rest : List SchemaCfg) :
    sameNamed (s :: rest) name = s :: sameNamed rest name := by
  simp [sameNamed, List.filter_cons, h]

theorem sameNamed_cons_neg {s : SchemaCfg} {name : String}
    (h : ¬s.name = name) (rest : List SchemaCfg) :
    sameNamed (s :: rest) name = sameNamed rest name := by
  simp [sameNamed, List.filter_cons, h]

theorem findLoop_someV (name v : String) : ∀ (l : List SchemaCfg)
    (acc : Option SchemaCfg),
    findLoop name (some v) l acc =
      Except.ok ((l.find? fun s => s.name == name && s.version == some v).elim
        acc some) := by
  intro l
  induction l with
  | nil => intro acc; rfl
  | cons s rest ih =>
    intro acc
    by_cases hn : s.name = name
    · by_cases hv : s.version = some v
      · rw [List.find?_cons_of_pos _ (by simp [hn, hv])]
        simp [findLoop, hn, hv]
      · rw [List.find?_cons_of_neg _ (by simp [hn, hv])]
        simp only [findLoop, if_pos hn, if_neg hv]
        exact ih acc
    · rw [List.find?_cons_of_neg _ (by simp [hn])]
      simp only [findLoop, if_neg hn]
      exact ih acc

theorem findLoop_no_match {name : String} {version : Option String} :
    ∀ {l : List SchemaCfg}, sameNamed l name = [] →
      ∀ acc, findLoop name version l acc = Except.ok acc := by
  intro l
  induction l with
  | nil => intro _ acc; rfl
  | cons s rest ih =>
    intro hempty acc
    by_cases hn : s.name = name
    · rw [sameNamed_cons_pos hn] at hempty
      exact List.noConfusion hempty
    · rw [sameNamed_cons_neg hn] at hempty
      simp only [findLoop, if_neg hn]
      exact ih hempty acc

theorem lvLtOpt_not_true {a b : Option String}
    (hs : (lvLtOpt a b).isSome = true) (hn : lvLtOpt a b ≠ some true) :
    lvLtOpt a b = some false := by
  cases h : lvLtOpt a b with
  | none => rw [h] at hs; simp at hs
  | some bb =>
    cases bb with
    | true => exact absurd h hn
    | false => rfl

theorem findLoop_noV_max {name : String} : ∀ (l : List SchemaCfg)
    (f : SchemaCfg),
    (∀ x ∈ f :: sameNamed l name, ∀ y ∈ f :: sameNamed l name,
        (lvLtOpt x.version y.version).isSome = true) →
    ∃ s, findLoop name none l (some f) = Except.ok (some s) ∧
      s ∈ f :: sameNamed l name ∧
      ∀ t ∈ f :: sameNamed l name, lvLtOpt s.version t.version ≠ some true := by
  intro l
  induction l with
  | nil =>
    intro f hcomp
    refine ⟨f, rfl, List.mem_cons_self f _, ?_⟩
    intro t ht
    rw [sameNamed_nil] at ht
    have heq : t = f := by simpa using ht
    subst heq
    rw [lvLtOpt_self (hcomp t (List.mem_cons_self _ _) t (List.mem_cons_self _ _))]
    simp
  | cons s0 rest ih =>
    intro f hcomp
    by_cases hn : s0.name = name
    · have hsn := sameNamed_cons_pos hn rest
      have hmem_s0 : s0 ∈ f :: sameNamed (s0 :: rest) name := by
        rw [hsn]
        exact List.mem_cons_of_mem _ (List.mem_cons_self _ _)
      have hmem_f : f ∈ f :: sameNamed (s0 :: rest) name := List.mem_cons_self _ _
      have hc0 := hcomp f hmem_f s0 hmem_s0
      cases hlt : lvLtOpt f.version s0.version with
      | none => rw [hlt] at hc0; simp at hc0
      | some b =>
        cases b with
        | true =>
          have hsub : ∀ x ∈ s0 :: sameNamed rest name,
              ∀ y ∈ s0 :: sameNamed rest name,
              (lvLtOpt x.version y.version).isSome = true := by
            intro x hx y hy
            refine hcomp x ?_ y ?_
            · rw [hsn]; exact List.mem_cons_of_mem _ hx
            · rw [hsn]; exact List.mem_cons_of_mem _ hy
          obtain ⟨s, hrun, hmem, hdom⟩ := ih s0 hsub
          refine ⟨s, ?_, ?_, ?_⟩
          · simp only [findLoop, if_pos hn, hlt]
            exact hrun
          · rw [hsn]
            exact List.mem_cons_of_mem _ hmem
          · intro t ht
            rw [hsn] at ht
            rcases List.mem_cons.mp ht with heq | ht2
            · subst heq
              intro hsf
              exact hdom s0 (List.mem_cons_self _ _) (lvLtOpt_true_trans hsf hlt)
            · exact hdom t ht2
        | false =>
          have hsub : ∀ x ∈ f :: sameNamed rest name,
              ∀ y ∈ f :: sameNamed rest name,
              (lvLtOpt x.version y.version).isSome = true := by
            intro x hx y hy
            refine hcomp x ?_ y ?_
            · rcases List.mem_cons.mp hx with heq | hx2
              · subst heq; exact List.mem_cons_self _ _
              · rw [hsn]
                exact List.mem_cons_of_mem _ (List.mem_cons_of_mem _ hx2)
            · rcases List.mem_cons.mp hy with heq | hy2
              · subst heq; exact List.mem_cons_self _ _
              · rw [hsn]
                exact List.mem_cons_of_mem _ (List.mem_cons_of_mem _ hy2)
          obtain ⟨s, hrun, hmem, hdom⟩ := ih f hsub
          have hmem_big : s ∈ f :: sameNamed (s0 :: rest) name := by
            rcases List.mem_cons.mp hmem with heq | h2
            · subst heq; exact List.mem_cons_self _ _
            · rw [hsn]
              exact List.mem_cons_of_mem _ (List.mem_cons_of_mem _ h2)
          refine ⟨s, ?_, hmem_big, ?_⟩
          · simp only [findLoop, if_pos hn, hlt]
            exact hrun
          · intro t ht
            rw [hsn] at ht
            rcases List.mem_cons.mp ht with heq | ht2
            · subst heq
              exact hdom t (List.mem_cons_self _ _)
            · rcases List.mem_cons.mp ht2 with heq | ht3
              · subst heq
                have hsf : lvLtOpt s.version f.version = some false :=
                  lvLtOpt_not_true (hcomp s hmem_big f hmem_f)
                    (hdom f (List.mem_cons_self _ _))
                have hss0 := hcomp s hmem_big t hmem_s0
                rw [lvLtOpt_false_trans hsf hlt hss0]
                simp
              · exact hdom t (List.mem_cons_of_mem _ ht3)
    · have hsn := sameNamed_cons_neg hn rest
      have hcomp2 : ∀ x ∈ f :: sameNamed rest name,
          ∀ y ∈ f :: sameNamed rest name,
          (lvLtOpt x.version y.version).isSome = true := by
        rw [← hsn]
        exact hcomp
      obtain ⟨s, hrun, hmem, hdom⟩ := ih f hcomp2
      refine ⟨s, ?_, ?_, ?_⟩
      · simp only [findLoop, if_neg hn]
        exact hrun
      · rw [hsn]
        exact hmem
      · rw [hsn]
        exact hdom

theorem findLoop_noV_start {name : String} : ∀ (l : List SchemaCfg),
    (∀ x ∈ sameNamed l name, ∀ y ∈ sameNamed l name,
        (lvLtOpt x.version y.version).isSome = true) →
    sameNamed l name ≠ [] →
    ∃ s, findLoop name none l none = Except.ok (some s) ∧
      s ∈ sameNamed l name ∧
      ∀ t ∈ sameNamed l name, lvLtOpt s.version t.version ≠ some true := by
  intro l
  induction l with
  | nil => intro _ hne; exact absurd rfl hne
  | cons s0 rest ih =>
    intro hcomp hne
    by_cases hn : s0.name = name
    · have hsn := sameNamed_cons_pos hn rest
      have hcomp2 : ∀ x ∈ s0 :: sameNamed rest name,
          ∀ y ∈ s0 :: sameNamed rest name,
          (lvLtOpt x.version y.version).isSome = true := by
        rw [← hsn]
        exact hcomp
      obtain ⟨s, hrun, hmem, hdom⟩ := findLoop_noV_max rest s0 hcomp2
      refine ⟨s, ?_, ?_, ?_⟩
      · simp only [findLoop, if_pos hn]
        exact hrun
      · rw [hsn]
        exact hmem
      · rw [hsn]
        exact hdom
    · have hsn := sameNamed_cons_neg hn rest
      rw [hsn] at hcomp hne
      obtain ⟨s, hrun, hmem, hdom⟩ := ih hcomp hne
      refine ⟨s, ?_, ?_, ?_⟩
      · simp only [findLoop, if_neg hn]
        exact hrun
      · rw [hsn]
        exact hmem
      · rw [hsn]
        exact hdom

theorem findLoop_noV_single {name : String} : ∀ {l : List SchemaCfg}
    {t : SchemaCfg}, sameNamed l name = [t] →
    findLoop name none l none = Except.ok (some t) := by
  intro l
  induction l with
  | nil =>
    intro t h
    rw [sameNamed_nil] at h
    exact List.noConfusion h
  | cons s0 rest ih =>
    intro t h
    by_cases hn : s0.name = name
    · rw [sameNamed_cons_pos hn] at h
      injection h with h1 h2
      subst h1
      simp only [findLoop, if_pos hn]
      exact findLoop_no_match h2 (some s0)
    · rw [sameNamed_cons_neg hn] at h
      simp only [findLoop, if_neg hn]
      exact ih h

/-- C6: with a version argument, `SchemaManager.find` returns exactly the
(first) stored schema with that name and that version, or `none`; with no
version argument it returns, among the same-named stored schemas, one that
no other same-named schema exceeds under the `LooseVersion` ordering
(`none` when no schema has that name), provided the ordering is defined on
every same-named pair. -/
theorem C6_find_spec :
    (∀ (schemas : List SchemaCfg) (name v : String),
      SchemaManager.find schemas name (some v) =
        Except.ok (schemas.find? fun s => s.name == name &&
          s.version == some v)) ∧
    (∀ (schemas : List SchemaCfg) (name : String),
      (∀ x ∈ sameNamed schemas name, ∀ y ∈ sameNamed schemas name,
          (lvLtOpt x.version y.version).isSome = true) →
      (sameNamed schemas name = [] →
        SchemaManager.find schemas name none = Except.ok none) ∧
      (sameNamed schemas name ≠ [] →
        ∃ s, SchemaManager.find schemas name none = Except.ok (some s) ∧
          s ∈ sameNamed schemas name ∧
          ∀ t ∈ sameNamed schemas name,
            lvLtOpt s.version t.version ≠ some true)) := by
  constructor
  · intro schemas name v
    rw [SchemaManager.find, findLoop_someV]
    cases schemas.find? fun s => s.name == name && s.version == some v <;> rfl
  · intro schemas name hcomp
    constructor
    · intro hempty
      exact findLoop_no_match hempty none
    · intro hne
      exact findLoop_noV_start schemas hcomp hne

/-- Fixed sample state for the `find` witness: two versions of schema
"s". -/
def sampleSchemas : List SchemaCfg :=
  [⟨"s", some "1.0", ["a"], none⟩, ⟨"s", some "2.0", ["a"], none⟩]

theorem C6_find_spec_witness :
    (SchemaManager.find sampleSchemas "s" (some "2.0") =
      Except.ok (sampleSchemas.find? fun s => s.name == "s" &&
        s.version == some "2.0")) ∧
    ∃ s, SchemaManager.find sampleSchemas "s" none = Except.ok (some s) ∧
      s ∈ sameNamed sampleSchemas "s" ∧
      ∀ t ∈ sameNamed sampleSchemas "s",
        lvLtOpt s.version t.version ≠ some true :=
  ⟨C6_find_spec.1 sampleSchemas "s" "2.0",
    (C6_find_spec.2 sampleSchemas "s" (by decide)).2 (by decide)⟩

/-- The state for the C10 counterexample: two same-named stored schemas,
one with no version (storable because exact-version duplicate detection
does not flag it against a version-less entry and conversely). -/
def cexSchemas : List SchemaCfg :=
  [⟨"n", none, ["a"], none⟩, ⟨"n", some "1.0", ["a"], none⟩]

/-- The version-less schema whose addition is attempted in the C10
counterexample. -/
def cexNew : SchemaCfg := ⟨"n", none, ["b"], none⟩

/-- C10 counterexample: with two same-named schemas stored, one of them
version-less, adding a version-less schema of that name without override
raises the `LooseVersion` comparison's type error from `find`, not the
duplicate-definition configuration error the claim promises for every
state with a same-named schema stored. -/
theorem C10_add_schema_counterexample :
    cexNew.version = none ∧
    (∃ t ∈ cexSchemas, t.name = cexNew.name) ∧
    SchemaManager.add_schema cexSchemas cexNew false =
      Except.error PyErr.typeError ∧
    ∀ msg, PyErr.typeError ≠ PyErr.indyConfigError msg := by
  refine ⟨rfl, ⟨⟨"n", none, ["a"], none⟩, by simp [cexSchemas], rfl⟩, rfl, ?_⟩
  intro msg h
  exact PyErr.noConfusion h

/-- C10 (amended): adding a version-less schema without override raises the
duplicate-definition configuration error whenever some schema of the same
name is stored and `find`'s highest-version scan is defined — i.e. the
`LooseVersion` order is defined on every same-named pair (so in particular
for any number of ordinarily-versioned entries), or exactly one same-named
schema is stored (then no comparison runs, whatever its version).  With
override set, the schema matched by `find` is removed before the new one is
appended.  Outside these conditions the scan can instead raise the
comparison's type error (see the counterexample). -/
theorem C10_add_schema_spec :
    (∀ (m : List SchemaCfg) (sch : SchemaCfg), sch.version = none →
      (∀ x ∈ sameNamed m sch.name, ∀ y ∈ sameNamed m sch.name,
          (lvLtOpt x.version y.version).isSome = true) →
      sameNamed m sch.name ≠ [] →
      SchemaManager.add_schema m sch false =
        Except.error (PyErr.indyConfigError "Duplicate schema definition") ∧
      ∃ t ∈ sameNamed m sch.name,
        SchemaManager.add_schema m sch true =
          Except.ok (m.erase t ++ [sch])) ∧
    (∀ (m : List SchemaCfg) (sch t : SchemaCfg), sch.version = none →
      sameNamed m sch.name = [t] →
      SchemaManager.add_schema m sch false =
        Except.error (PyErr.indyConfigError "Duplicate schema definition") ∧
      SchemaManager.add_schema m sch true =
        Except.ok (m.erase t ++ [sch])) := by
  constructor
  · intro m sch hv hcomp hne
    obtain ⟨s, hrun, hmem, hdom⟩ := findLoop_noV_start m hcomp hne
    constructor
    · unfold SchemaManager.add_schema SchemaManager.find
      rw [hv, hrun]
      rfl
    · refine ⟨s, hmem, ?_⟩
      unfold SchemaManager.add_schema SchemaManager.find
      rw [hv, hrun]
      rfl
  · intro m sch t hv hone
    constructor
    · unfold SchemaManager.add_schema SchemaManager.find
      rw [hv, findLoop_noV_single hone]
      rfl
    · unfold SchemaManager.add_schema SchemaManager.find
      rw [hv, findLoop_noV_single hone]
      rfl

theorem C10_add_schema_spec_witness :
    (SchemaManager.add_schema
        [⟨"w", some "1.0", ["a"], none⟩, ⟨"w", some "2.0", ["a"], none⟩]
        ⟨"w", none, ["b"], none⟩ false =
      Except.error (PyErr.indyConfigError "Duplicate schema definition") ∧
      ∃ t ∈ sameNamed
          [⟨"w", some "1.0", ["a"], none⟩, ⟨"w", some "2.0", ["a"], none⟩]
          "w",
        SchemaManager.add_schema
          [⟨"w", some "1.0", ["a"], none⟩, ⟨"w", some "2.0", ["a"], none⟩]
          ⟨"w", none, ["b"], none⟩ true =
          Except.ok ([⟨"w", some "1.0", ["a"], none⟩,
            ⟨"w", some "2.0", ["a"], none⟩].erase t ++
            [⟨"w", none, ["b"], none⟩])) ∧
    (SchemaManager.add_schema [⟨"w", some "3.1", ["a"], none⟩]
        ⟨"w", none, ["b"], none⟩ false =
      Except.error (PyErr.indyConfigError "Duplicate schema definition") ∧
      SchemaManager.add_schema [⟨"w", some "3.1", ["a"], none⟩]
        ⟨"w", none, ["b"], none⟩ true =
      Except.ok [⟨"w", none, ["b"], none⟩]) :=
  ⟨C10_add_schema_spec.1
      [⟨"w", some "1.0", ["a"], none⟩, ⟨"w", some "2.0", ["a"], none⟩]
      ⟨"w", none, ["b"], none⟩ rfl (by decide) (by decide),
    C10_add_schema_spec.2 _ _ ⟨"w", some "3.1", ["a"], none⟩ rfl (by decide)⟩

/-!
## Ledger publication (`service.py` `IndyService._publish_schema`)

External calls are resolved through an environment of responses and are
recorded in a trace; the mutated `cred_type` dict is threaded explicitly,
and mutations made before a raise persist, as they do in Python.
-/

/-- A parsed ledger-schema JSON response; only the `seqNo` field is
inspected by the code (absent-or-null is modelled as `none`), the rest of
the payload is opaque. -/
structure LedgerSchema where
  seqNo : Option Nat
  deriving DecidableEq, Repr

/-- Python truthiness of the `send_schema` response as tested by
`not ledger_schema or not ledger_schema.get("seqNo")`: the parsed response
must be non-empty and its `seqNo` non-falsy (present and nonzero). -/
def ledgerSchemaTruthy : Option LedgerSchema → Bool
  | none => false
  | some ls =>
    match ls.seqNo with
    | none => false
    | some n => !(n == 0)

/-- One entry of `AgentCfg.cred_types` (`config.py` `add_credential_type`):
the schema definition plus the recorded ledger schema and credential
definition, both absent until published.  The code only ever tests these
two fields for truthiness, so a parsed-null value is collapsed to
absent. -/
structure CredType where
  definition : SchemaCfg
  ledger_schema : Option LedgerSchema
  cred_def : Option String
  deriving DecidableEq, Repr

/-- The kinds of external capability calls made during synchronization. -/
inductive CallKind where
  | walletCreate
  | agentOpen
  | createLinkSecret
  | getNym
  | registerNym
  | getSchema
  | sendSchema
  | getCredDef
  | sendCredDef
  | connectionCreate
  | connectionOpen
  | connectionSync
  deriving DecidableEq, Repr

/-- One recorded external call, tagged with the id of the entity whose
synchronization performed it. -/
structure CallEvent where
  owner : String
  call : CallKind
  deriving DecidableEq, Repr

/-- Outcome of one mutation-threaded service step: the external calls made,
the state as mutated so far (mutations before a raise persist, as in
Python), and the raised exception, if any. -/
structure SyncOut (α : Type) where
  trace : List CallEvent
  state : α
  err : Option PyErr
  deriving DecidableEq, Repr

/-- External responses available to one `_publish_schema` invocation. -/
structure PublishEnv where
  getSchema : LookupResult LedgerSchema
  sendSchema : CallResult (Option LedgerSchema)
  getCredDef : LookupResult String
  sendCredDef : CallResult (Option String)
  deriving DecidableEq, Repr

/-- The credential-definition half of `_publish_schema`: look up the
definition by (issuer DID, schema seqNo); if absent, publish it from
`schema_json` — the local variable assigned only inside the ledger-schema
half, so `none` here models a Python `UnboundLocalError` raised when the
ledger-schema half was skipped. -/
def publishCredDefStep (env : PublishEnv) (owner : String)
    (tr : List CallEvent) (ct1 : CredType)
    (schema_json : Option LedgerSchema) : SyncOut CredType :=
  if ct1.cred_def = none then
    match env.getCredDef with
    | .fail e => ⟨tr ++ [⟨owner, .getCredDef⟩], ct1, some e⟩
    | .found cd =>
      ⟨tr ++ [⟨owner, .getCredDef⟩], { ct1 with cred_def := some cd }, none⟩
    | .absent =>
      match schema_json with
      | none => ⟨tr ++ [⟨owner, .getCredDef⟩], ct1, some PyErr.unboundLocalError⟩
      | some _ =>
        match env.sendCredDef with
        | .fail e =>
          ⟨tr ++ [⟨owner, .getCredDef⟩, ⟨owner, .sendCredDef⟩], ct1, some e⟩
        | .ok cd =>
          ⟨tr ++ [⟨owner, .getCredDef⟩, ⟨owner, .sendCredDef⟩],
            { ct1 with cred_def := cd }, none⟩
  else ⟨tr, ct1, none⟩

/-- `service.py` `IndyService._publish_schema`: ensure the ledger schema is
recorded (looking it up, else submitting it and requiring a `seqNo`), then
ensure the credential definition is recorded.  The missing-definition guard
of the source cannot fire because the embedded `CredType` always holds a
definition. -/
def publish_schema (env : PublishEnv) (owner : String) (ct : CredType) :
    SyncOut CredType :=
  if ct.ledger_schema = none then
    match env.getSchema with
    | .fail e => ⟨[⟨owner, .getSchema⟩], ct, some e⟩
    | .found ls =>
      publishCredDefStep env owner [⟨owner, .getSchema⟩]
        { ct with ledger_schema := some ls } (some ls)
    | .absent =>
      match env.sendSchema with
      | .fail e => ⟨[⟨owner, .getSchema⟩, ⟨owner, .sendSchema⟩], ct, some e⟩
      | .ok resp =>
        if ledgerSchemaTruthy resp then
          publishCredDefStep env owner [⟨owner, .getSchema⟩, ⟨owner, .sendSchema⟩]
            { ct with ledger_schema := resp } resp
        else
          ⟨[⟨owner, .getSchema⟩, ⟨owner, .sendSchema⟩], ct,
            some (PyErr.serviceSyncError "Schema was not published to ledger")⟩
  else publishCredDefStep env owner [] ct none

/-- The environment of the C2 failing input: the credential definition is
absent from the ledger, the rest would succeed. -/
def c2Env : PublishEnv :=
  { getSchema := .absent
    sendSchema := .ok (some ⟨some 9⟩)
    getCredDef := .absent
    sendCredDef := .ok (some "cred-def") }

/-- The C2 failing credential type: a previous run recorded the ledger
schema and stopped before the credential definition was published. -/
def c2CredType : CredType :=
  { definition := ⟨"degree", some "1.0", ["name", "year"], none⟩
    ledger_schema := some ⟨some 9⟩
    cred_def := none }

/-- C2: re-running `_publish_schema` with the ledger schema recorded and
the credential definition still unpublished skips the schema half (so the
schema is indeed not submitted again) but then raises `UnboundLocalError`
instead of publishing the missing credential definition: `send_cred_def`
receives `schema_json`, a local assigned only inside the skipped schema
half.  The re-run leaves the credential definition unpublished. -/
theorem C2_republish_failing_input :
    publish_schema c2Env "agent-1" c2CredType =
      ⟨[⟨"agent-1", .getCredDef⟩], c2CredType, some PyErr.unboundLocalError⟩ ∧
    (∀ ev ∈ (publish_schema c2Env "agent-1" c2CredType).trace,
      ev.call ≠ CallKind.sendSchema ∧ ev.call ≠ CallKind.sendCredDef) ∧
    (publish_schema c2Env "agent-1" c2CredType).state.cred_def = none := by
  refine ⟨rfl, ?_, rfl⟩
  decide

/-- C4: when the ledger schema is absent and the submission response is
empty or lacks a (nonzero) assigned sequence number, `_publish_schema`
raises the "Schema was not published to ledger" sync error and the
credential type's ledger schema stays unrecorded. -/
theorem C4_publish_requires_seqNo
    (env : PublishEnv) (owner : String) (ct : CredType)
    (resp : Option LedgerSchema)
    (h1 : ct.ledger_schema = none)
    (h2 : env.getSchema = LookupResult.absent)
    (h3 : env.sendSchema = CallResult.ok resp)
    (h4 : ledgerSchemaTruthy resp = false) :
    (publish_schema env owner ct).err =
      some (PyErr.serviceSyncError "Schema was not published to ledger") ∧
    (publish_schema env owner ct).state.ledger_schema = none := by
  simp [publish_schema, h1, h2, h3, h4]

theorem C4_publish_requires_seqNo_witness :
    (publish_schema ⟨.absent, .ok (some ⟨some 0⟩), .absent, .ok none⟩
        "agent-2" ⟨⟨"x", some "1.0", ["a"], none⟩, none, none⟩).err =
      some (PyErr.serviceSyncError "Schema was not published to ledger") ∧
    (publish_schema ⟨.absent, .ok (some ⟨some 0⟩), .absent, .ok none⟩
        "agent-2" ⟨⟨"x", some "1.0", ["a"], none⟩, none, none⟩).state.ledger_schema =
      none :=
  C4_publish_requires_seqNo _ "agent-2" _ (some ⟨some 0⟩) rfl rfl rfl rfl

/-!
## Agent synchronization (`service.py` `IndyService._sync_agent`)
-/

/-- `config.py` `AgentType`. -/
inductive AgentType where
  | issuer
  | holder
  | verifier
  deriving DecidableEq, Repr

/-- `config.py` `AgentCfg`: the status flags are threaded explicitly; `did`
stands for the wallet-derived DID available once the agent instance
exists. -/
structure AgentCfg where
  agent_id : String
  agent_type : AgentType
  wallet_id : String
  did : Option String
  cred_types : List CredType
  created : Bool
  opened : Bool
  registered : Bool
  synced : Bool
  deriving DecidableEq, Repr

/-- `config.py` `AgentCfg.role`: TRUST_ANCHOR for issuers, empty
otherwise. -/
def AgentCfg.role (a : AgentCfg) : String :=
  if a.agent_type = AgentType.issuer then "TRUST_ANCHOR" else ""

/-- The parsed response of the `POST /register` DID registration: its
truthiness and its `did` field (`none` models a null or empty did value). -/
structure RegResponse where
  truthy : Bool
  did : Option String
  deriving DecidableEq, Repr

/-- External responses available to one `_check_registration` call:
the truthiness of the parsed `get_nym` result, and the registration
response. -/
structure RegEnv where
  getNym : CallResult Bool
  register : CallResult RegResponse
  deriving DecidableEq, Repr

/-- `service.py` `IndyService._check_registration`: look up the nym; if
absent, fail when auto-registration is disabled or the ledger URL is
missing, else POST the registration and require a truthy response carrying
a did.  An `IndyConnectionError` from the HTTP session is re-raised as a
`ServiceSyncError`; other errors propagate. -/
def check_registration (env : RegEnv) (autoRegister ledgerUrlSet : Bool)
    (owner : String) : List CallEvent × Option PyErr :=
  match env.getNym with
  | .fail e => ([⟨owner, .getNym⟩], some e)
  | .ok nymTruthy =>
    if nymTruthy then ([⟨owner, .getNym⟩], none)
    else if autoRegister = false then
      ([⟨owner, .getNym⟩], some (PyErr.serviceSyncError
        "DID is not registered on the ledger and auto-registration disabled"))
    else if ledgerUrlSet = false then
      ([⟨owner, .getNym⟩], some (PyErr.indyConfigError
        "Cannot register DID without ledger_url"))
    else
      match env.register with
      | .fail (PyErr.indyConnectionError msg) =>
        ([⟨owner, .getNym⟩, ⟨owner, .registerNym⟩],
          some (PyErr.serviceSyncError msg))
      | .fail e => ([⟨owner, .getNym⟩, ⟨owner, .registerNym⟩], some e)
      | .ok resp =>
        if resp.truthy = false ∨ optTruthy resp.did = false then
          ([⟨owner, .getNym⟩, ⟨owner, .registerNym⟩],
            some (PyErr.serviceSyncError "DID registration failed"))
        else ([⟨owner, .getNym⟩, ⟨owner, .registerNym⟩], none)

/-- External responses available to one `_sync_agent` invocation:
the agent `open` call, the holder link-secret creation, the registration
calls, and per-credential-type publication responses (by position). -/
structure AgentSyncEnv where
  openAgent : CallResult Unit
  linkSecret : CallResult Unit
  reg : RegEnv
  publish : Nat → PublishEnv

/-- The create/open phase of `_sync_agent`: `AgentCfg.create` instantiates
the agent (setting `created`) and `AgentCfg.open` opens it once, creating
the link secret for holder agents. -/
def openStage (env : AgentSyncEnv) (agent : AgentCfg) :
    List CallEvent × AgentCfg × Option PyErr :=
  if agent.opened then ([], { agent with created := true }, none)
  else
    match env.openAgent with
    | .fail e => ([⟨agent.agent_id, .agentOpen⟩], { agent with created := true }, some e)
    | .ok _ =>
      if agent.agent_type = AgentType.holder then
        match env.linkSecret with
        | .fail e =>
          ([⟨agent.agent_id, .agentOpen⟩, ⟨agent.agent_id, .createLinkSecret⟩],
            { agent with created := true, opened := true }, some e)
        | .ok _ =>
          ([⟨agent.agent_id, .agentOpen⟩, ⟨agent.agent_id, .createLinkSecret⟩],
            { agent with created := true, opened := true }, none)
      else ([⟨agent.agent_id, .agentOpen⟩],
        { agent with created := true, opened := true }, none)

/-- The registration phase of `_sync_agent`. -/
def regStage (env : AgentSyncEnv) (autoRegister ledgerUrlSet : Bool)
    (a : AgentCfg) : List CallEvent × AgentCfg × Option PyErr :=
  if a.registered then ([], a, none)
  else
    match check_registration env.reg autoRegister ledgerUrlSet a.agent_id with
    | (tr, some e) => (tr, a, some e)
    | (tr, none) => (tr, { a with registered := true }, none)

/-- The publication loop of `_sync_agent` over `agent.cred_types`: each
credential type is published in order; a raise aborts the loop, keeping the
already-updated entries and leaving the rest untouched. -/
def publishAll (pubs : Nat → PublishEnv) (owner : String) :
    Nat → List CredType → List CallEvent × List CredType × Option PyErr
  | _, [] => ([], [], none)
  | i, ct :: rest =>
    match publish_schema (pubs i) owner ct with
    | ⟨tr1, st1, some e⟩ => (tr1, st1 :: rest, some e)
    | ⟨tr1, st1, none⟩ =>
      (tr1 ++ (publishAll pubs owner (i + 1) rest).1,
        st1 :: (publishAll pubs owner (i + 1) rest).2.1,
        (publishAll pubs owner (i + 1) rest).2.2)

/-- `service.py` `IndyService._sync_agent`: skip when already synced;
require the wallet to be created (silent "not yet" return); create and
open the agent; register its DID; publish every bound credential type; and
only then set `synced`. -/
def sync_agent (env : AgentSyncEnv)
    (walletCreated autoRegister ledgerUrlSet : Bool) (agent : AgentCfg) :
    SyncOut (AgentCfg × Bool) :=
  if agent.synced then ⟨[], (agent, true), none⟩
  else if agent.created = false ∧ walletCreated = false then
    ⟨[], (agent, false), none⟩
  else
    match openStage env agent with
    | (tr, a2, some e) => ⟨tr, (a2, false), some e⟩
    | (tr, a2, none) =>
      match regStage env autoRegister ledgerUrlSet a2 with
      | (tr2, a3, some e) => ⟨tr ++ tr2, (a3, false), some e⟩
      | (tr2, a3, none) =>
        match publishAll env.publish a3.agent_id 0 a3.cred_types with
        | (tr3, cts, some e) =>
          ⟨tr ++ tr2 ++ tr3, ({ a3 with cred_types := cts }, false), some e⟩
        | (tr3, cts, none) =>
          ⟨tr ++ tr2 ++ tr3,
            ({ a3 with cred_types := cts, synced := true }, true), none⟩

theorem publishCredDefStep_ledger (env : PublishEnv) (owner : String)
    (tr : List CallEvent) (ct1 : CredType) (sj : Option LedgerSchema) :
    (publishCredDefStep env owner tr ct1 sj).state.ledger_schema =
      ct1.ledger_schema := by
  unfold publishCredDefStep
  split_ifs with h
  · cases env.getCredDef with
    | fail e => rfl
    | found cd => rfl
    | absent =>
      cases sj with
      | none => rfl
      | some s =>
        cases env.sendCredDef with
        | fail e => rfl
        | ok cd => rfl
  · rfl

theorem publish_schema_ok_ledger {env : PublishEnv} {owner : String}
    {ct : CredType} (h : (publish_schema env owner ct).err = none) :
    (publish_schema env owner ct).state.ledger_schema ≠ none := by
  obtain ⟨egs, ess, egcd, escd⟩ := env
  unfold publish_schema at h ⊢
  split_ifs at h ⊢ with h1
  · cases egs with
    | fail e => simp at h
    | found ls =>
      simp only [publishCredDefStep_ledger]
      simp
    | absent =>
      cases ess with
      | fail e => simp at h
      | ok resp =>
        by_cases ht : ledgerSchemaTruthy resp = true
        · simp only [ht, if_true] at h ⊢
          simp only [publishCredDefStep_ledger]
          cases resp with
          | none => simp [ledgerSchemaTruthy] at ht
          | some ls => simp
        · have hf : ledgerSchemaTruthy resp = false := by
            simpa using ht
          simp only [hf] at h
          simp at h
  · simp only [publishCredDefStep_ledger]
    exact h1

theorem publishAll_ok {pubs : Nat → PublishEnv} {owner : String} :
    ∀ {cts : List CredType} {i : Nat},
      (publishAll pubs owner i cts).2.2 = none →
      ∀ ct ∈ (publishAll pubs owner i cts).2.1, ct.ledger_schema ≠ none := by
  intro cts
  induction cts with
  | nil =>
    intro i h ct hct
    simp [publishAll] at hct
  | cons c rest ih =>
    intro i h ct hct
    unfold publishAll at h hct
    rcases hr : publish_schema (pubs i) owner c with ⟨tr1, st1, oe⟩
    rw [hr] at h hct
    cases oe with
    | some e => simp at h
    | none =>
      simp only [List.mem_cons] at hct
      rcases hct with heq | hmem
      · subst heq
        have hl := publish_schema_ok_ledger
          (show (publish_schema (pubs i) owner c).err = none by rw [hr])
        rw [hr] at hl
        exact hl
      · exact ih (by simpa using h) ct (by simpa using hmem)

theorem openStage_preserves {env : AgentSyncEnv} {a : AgentCfg}
    {tr : List CallEvent} {a2 : AgentCfg} {oe : Option PyErr}
    (h : openStage env a = (tr, a2, oe)) :
    a2.synced = a.synced ∧ a2.cred_types = a.cred_types ∧
      a2.agent_id = a.agent_id ∧ a2.registered = a.registered := by
  unfold openStage at h
  by_cases h1 : a.opened
  · rw [if_pos h1] at h
    obtain ⟨rfl, rfl, rfl⟩ := Prod.mk.injEq .. ▸ h
    exact ⟨rfl, rfl, rfl, rfl⟩
  · rw [if_neg h1] at h
    cases eo : env.openAgent with
    | fail e =>
      simp only [eo, Prod.mk.injEq] at h
      obtain ⟨rfl, rfl, rfl⟩ := h
      exact ⟨rfl, rfl, rfl, rfl⟩
    | ok u =>
      by_cases h2 : a.agent_type = AgentType.holder
      · cases els : env.linkSecret with
        | fail e =>
          simp only [eo, els, h2, if_true, Prod.mk.injEq] at h
          obtain ⟨rfl, rfl, rfl⟩ := h
          exact ⟨rfl, rfl, rfl, rfl⟩
        | ok u2 =>
          simp only [eo, els, h2, if_true, Prod.mk.injEq] at h
          obtain ⟨rfl, rfl, rfl⟩ := h
          exact ⟨rfl, rfl, rfl, rfl⟩
      · simp only [eo, if_neg h2, Prod.mk.injEq] at h
        obtain ⟨rfl, rfl, rfl⟩ := h
        exact ⟨rfl, rfl, rfl, rfl⟩

theorem regStage_preserves {env : AgentSyncEnv}
    {autoRegister ledgerUrlSet : Bool} {a : AgentCfg}
    {tr : List CallEvent} {a3 : AgentCfg} {oe : Option PyErr}
    (h : regStage env autoRegister ledgerUrlSet a = (tr, a3, oe)) :
    a3.synced = a.synced ∧ a3.cred_types = a.cred_types ∧
      a3.agent_id = a.agent_id := by
  unfold regStage at h
  by_cases h1 : a.registered
  · rw [if_pos h1] at h
    obtain ⟨rfl, rfl, rfl⟩ := Prod.mk.injEq .. ▸ h
    exact ⟨rfl, rfl, rfl⟩
  · rw [if_neg h1] at h
    rcases hc : check_registration env.reg autoRegister ledgerUrlSet a.agent_id
      with ⟨trc, oec⟩
    rw [hc] at h
    cases oec with
    | some e =>
      simp only [Prod.mk.injEq] at h
      obtain ⟨rfl, rfl, rfl⟩ := h
      exact ⟨rfl, rfl, rfl⟩
    | none =>
      simp only [Prod.mk.injEq] at h
      obtain ⟨rfl, rfl, rfl⟩ := h
      exact ⟨rfl, rfl, rfl⟩

/-- C3: `_sync_agent` never sets an unsynced agent's `synced` flag while
some bound credential type lacks both a recorded ledger schema and a
recorded credential definition: whenever the flag was set by the call,
every credential type of the resulting agent has a recorded ledger schema
(so none lacks both). -/
theorem C3_sync_agent_requires_publication
    (env : AgentSyncEnv) (walletCreated autoRegister ledgerUrlSet : Bool)
    (agent : AgentCfg) (h0 : agent.synced = false)
    (h1 : (sync_agent env walletCreated autoRegister ledgerUrlSet
      agent).state.1.synced = true) :
    ∀ ct ∈ (sync_agent env walletCreated autoRegister ledgerUrlSet
        agent).state.1.cred_types,
      ¬(ct.ledger_schema = none ∧ ct.cred_def = none) := by
  unfold sync_agent at h1 ⊢
  split_ifs at h1 ⊢ with hs hw
  · exact absurd hs (by simp [h0])
  · simp at h1
    exact absurd h1 (by simp [h0])
  · rcases ho : openStage env agent with ⟨tr, a2, oe⟩
    rw [ho] at h1
    have hopen := openStage_preserves ho
    cases oe with
    | some e =>
      simp at h1
      rw [hopen.1, h0] at h1
      exact Bool.noConfusion h1
    | none =>
      simp only [] at h1 ⊢
      have h1' : (match regStage env autoRegister ledgerUrlSet a2 with
          | (tr2, a3, some e) =>
            (⟨tr ++ tr2, (a3, false), some e⟩ : SyncOut (AgentCfg × Bool))
          | (tr2, a3, none) =>
            match publishAll env.publish a3.agent_id 0 a3.cred_types with
            | (tr3, cts, some e) =>
              ⟨tr ++ tr2 ++ tr3, ({ a3 with cred_types := cts }, false), some e⟩
            | (tr3, cts, none) =>
              ⟨tr ++ tr2 ++ tr3,
                ({ a3 with cred_types := cts, synced := true }, true),
                none⟩).state.1.synced = true := h1
      rcases hr : regStage env autoRegister ledgerUrlSet a2 with ⟨tr2, a3, oe2⟩
      rw [hr] at h1'
      have hreg := regStage_preserves hr
      cases oe2 with
      | some e =>
        simp at h1'
        rw [hreg.1, hopen.1, h0] at h1'
        exact Bool.noConfusion h1'
      | none =>
        have h1'' : (match publishAll env.publish a3.agent_id 0 a3.cred_types
            with
          | (tr3, cts, some e) =>
            (⟨tr ++ tr2 ++ tr3, ({ a3 with cred_types := cts }, false),
              some e⟩ : SyncOut (AgentCfg × Bool))
          | (tr3, cts, none) =>
            ⟨tr ++ tr2 ++ tr3,
              ({ a3 with cred_types := cts, synced := true }, true),
              none⟩).state.1.synced = true := h1'
        rcases hp : publishAll env.publish a3.agent_id 0 a3.cred_types
          with ⟨tr3, cts, oe3⟩
        rw [hp] at h1''
        cases oe3 with
        | some e =>
          simp at h1''
          rw [hreg.1, hopen.1, h0] at h1''
          exact Bool.noConfusion h1''
        | none =>
          intro ct hct
          have hctB : ct ∈ (match publishAll env.publish a3.agent_id 0
              a3.cred_types with
            | (tr3, cts, some e) =>
              (⟨tr ++ tr2 ++ tr3, ({ a3 with cred_types := cts }, false),
                some e⟩ : SyncOut (AgentCfg × Bool))
            | (tr3, cts, none) =>
              ⟨tr ++ tr2 ++ tr3,
                ({ a3 with cred_types := cts, synced := true }, true),
                none⟩).state.1.cred_types := hct
          rw [hp] at hctB
          intro hboth
          have hok : (publishAll env.publish a3.agent_id 0
              a3.cred_types).2.2 = none := by rw [hp]
          have hmem : ct ∈ (publishAll env.publish a3.agent_id 0
              a3.cred_types).2.1 := by
            rw [hp]
            simpa using hctB
          exact publishAll_ok hok ct hmem hboth.1

/-- Fixed agent for the C3 witness: a fresh issuer with one bound
credential type. -/
def c3Agent : AgentCfg :=
  { agent_id := "iss"
    agent_type := AgentType.issuer
    wallet_id := "w"
    did := some "did-iss"
    cred_types := [⟨⟨"degree", some "1.0", ["name"], none⟩, none, none⟩]
    created := false
    opened := false
    registered := false
    synced := false }

/-- Fixed all-successful environment for the C3 witness. -/
def c3Env : AgentSyncEnv :=
  { openAgent := .ok ()
    linkSecret := .ok ()
    reg := { getNym := .ok true, register := .ok ⟨true, some "d"⟩ }
    publish := fun _ =>
      ⟨.absent, .ok (some ⟨some 7⟩), .absent, .ok (some "cd")⟩ }

theorem C3_sync_agent_requires_publication_witness :
    c3Agent.synced = false ∧
    (sync_agent c3Env true true true c3Agent).state.1.synced = true ∧
    ∀ ct ∈ (sync_agent c3Env true true true c3Agent).state.1.cred_types,
      ¬(ct.ledger_schema = none ∧ ct.cred_def = none) :=
  ⟨rfl, by decide,
    C3_sync_agent_requires_publication c3Env true true true c3Agent rfl
      (by decide)⟩

/-!
## Proof construction (`service.py` `IndyService._construct_proof`)
-/

/-- One credential found for a requested attribute; only the wallet
referent is read by the code. -/
structure CredInfo where
  referent : String
  deriving DecidableEq, Repr

/-- The parsed `found_creds` response of the holder's credential search
(`get_creds` / `get_creds_by_id`): its `attrs` member maps each requested
attribute to the list of matching credentials. -/
structure FoundCreds where
  attrs : List (String × List CredInfo)
  deriving DecidableEq, Repr

/-- `messages.py` `ConstructedProof`: the parsed proof payload, opaque. -/
structure ConstructedProof where
  proof : String
  deriving DecidableEq, Repr

/-- External responses for one `_construct_proof` call. -/
structure ConstructProofEnv where
  getCreds : CallResult FoundCreds
  createProof : CallResult String
  deriving DecidableEq, Repr

/-- `service.py` `IndyService._construct_proof`: gate on a known, synced
holder; fetch the candidate credentials; fail when the attrs map is empty,
when some requested attribute has no match (`missing`), or when some has
more than one (`too_many`); otherwise build the proof from the single
match per attribute. -/
def construct_proof (agents : List AgentCfg) (env : ConstructProofEnv)
    (holder_id : String) : Except PyErr ConstructedProof :=
  match agents.find? (fun a => a.agent_id == holder_id) with
  | none => .error (.indyConfigError "Unknown holder id")
  | some holder =>
    if holder.synced = false then
      .error (.indyConfigError "Holder is not yet synchronized")
    else match env.getCreds with
      | .fail e => .error e
      | .ok fc =>
        if fc.attrs = [] then
          .error (.indyError "No credentials found for proof")
        else if (fc.attrs.filter fun pr => pr.2.isEmpty) ≠ [] then
          .error (.indyError "No credentials found for proof")
        else if (fc.attrs.filter fun pr => decide (1 < pr.2.length)) ≠ [] then
          .error (.indyError "Too many credentials found for proof")
        else match env.createProof with
          | .fail e => .error e
          | .ok p => .ok ⟨p⟩

/-- C7 (amended): given a known synced holder and successful external
calls, `_construct_proof` raises the "No credentials" error when some
requested attribute has zero matches, raises the "Too many credentials"
error when none has zero but some has more than one, and returns a
constructed proof exactly when there is at least one requested attribute
and every requested attribute has exactly one match. -/
theorem C7_construct_proof_spec
    (agents : List AgentCfg) (env : ConstructProofEnv) (holder_id : String)
    (holder : AgentCfg) (fc : FoundCreds) (p : String)
    (hfind : agents.find? (fun a => a.agent_id == holder_id) = some holder)
    (hsync : holder.synced = true)
    (hcreds : env.getCreds = CallResult.ok fc)
    (hproof : env.createProof = CallResult.ok p) :
    ((∃ pr ∈ fc.attrs, pr.2 = []) →
      construct_proof agents env holder_id =
        Except.error (PyErr.indyError "No credentials found for proof")) ∧
    ((∀ pr ∈ fc.attrs, pr.2 ≠ []) → (∃ pr ∈ fc.attrs, 1 < pr.2.length) →
      construct_proof agents env holder_id =
        Except.error (PyErr.indyError "Too many credentials found for proof")) ∧
    (construct_proof agents env holder_id = Except.ok ⟨p⟩ ↔
      fc.attrs ≠ [] ∧ ∀ pr ∈ fc.attrs, pr.2.length = 1) := by
  refine ⟨?_, ?_, ?_⟩
  · rintro ⟨pr, hmem, hemp⟩
    by_cases hA : fc.attrs = []
    · simp [construct_proof, hfind, hsync, hcreds, hA]
    · have hB : (fc.attrs.filter fun q => q.2.isEmpty) ≠ [] := by
        rw [Ne, List.filter_eq_nil_iff]
        push_neg
        exact ⟨pr, hmem, by simp [hemp]⟩
      simp [construct_proof, hfind, hsync, hcreds, hA, hB]
  · rintro hall ⟨pr, hmem, hgt⟩
    have hA : fc.attrs ≠ [] := by
      intro hnil
      rw [hnil] at hmem
      exact List.not_mem_nil pr hmem
    have hB : (fc.attrs.filter fun q => q.2.isEmpty) = [] := by
      rw [List.filter_eq_nil_iff]
      intro q hq
      simp [hall q hq]
    have hC : (fc.attrs.filter fun q => decide (1 < q.2.length)) ≠ [] := by
      rw [Ne, List.filter_eq_nil_iff]
      push_neg
      exact ⟨pr, hmem, by simp [hgt]⟩
    simp [construct_proof, hfind, hsync, hcreds, hA, hB, hC]
  · by_cases hA : fc.attrs = []
    · constructor
      · intro hok
        exfalso
        simp [construct_proof, hfind, hsync, hcreds, hA] at hok
      · rintro ⟨hne, -⟩
        exact absurd hA hne
    · by_cases hB : (fc.attrs.filter fun q => q.2.isEmpty) = []
      · by_cases hC : (fc.attrs.filter fun q => decide (1 < q.2.length)) = []
        · constructor
          · intro _
            refine ⟨hA, ?_⟩
            intro pr hmem
            have h1 : ¬pr.2.isEmpty = true := by
              intro hh
              have := (List.filter_eq_nil_iff.1 hB) pr hmem
              exact this hh
            have h2 : ¬(1 < pr.2.length) := by
              intro hh
              have := (List.filter_eq_nil_iff.1 hC) pr hmem
              simp [hh] at this
            have h3 : pr.2 ≠ [] := by
              intro hh
              exact h1 (by simp [hh])
            have h4 : 0 < pr.2.length := List.length_pos.2 h3
            omega
          · intro _
            simp [construct_proof, hfind, hsync, hcreds, hproof, hA, hB, hC]
        · constructor
          · intro hok
            exfalso
            simp [construct_proof, hfind, hsync, hcreds, hA, hB, hC] at hok
          · rintro ⟨-, hall⟩
            exfalso
            have hC2 : ¬∀ q ∈ fc.attrs, ¬(decide (1 < q.2.length) = true) :=
              fun hall2 => hC (List.filter_eq_nil_iff.2 hall2)
            push_neg at hC2
            obtain ⟨pr, hmem, hpr⟩ := hC2
            simp at hpr
            have := hall pr hmem
            omega
      · constructor
        · intro hok
          exfalso
          simp [construct_proof, hfind, hsync, hcreds, hA, hB] at hok
        · rintro ⟨-, hall⟩
          exfalso
          have hB2 : ¬∀ q ∈ fc.attrs, ¬(q.2.isEmpty = true) :=
            fun hall2 => hB (List.filter_eq_nil_iff.2 hall2)
          push_neg at hB2
          obtain ⟨pr, hmem, hpr⟩ := hB2
          have h3 := hall pr hmem
          have : pr.2 = [] := by
            cases hl : pr.2 with
            | nil => rfl
            | cons x xs => rw [hl] at hpr; simp at hpr
          rw [this] at h3
          simp at h3

/-- Fixed holder for the C7 theorems. -/
def c7Holder : AgentCfg :=
  { agent_id := "hold", agent_type := AgentType.holder, wallet_id := "w",
    did := none, cred_types := [], created := true, opened := true,
    registered := true, synced := true }

/-- Fixed holder catalog for the C7 theorems. -/
def c7Agents : List AgentCfg := [c7Holder]

/-- Environment of the C7 counterexample: the holder returns an empty
attrs map (a proof request with no requested attributes). -/
def c7Env : ConstructProofEnv :=
  { getCreds := .ok ⟨[]⟩, createProof := .ok "proof" }

/-- C7 counterexample: with an empty attrs map every requested attribute
vacuously has exactly one match, yet `_construct_proof` raises instead of
proceeding, so "proceeds exactly when each requested attribute has exactly
one matching credential" fails at this input. -/
theorem C7_construct_proof_counterexample :
    c7Env.getCreds = CallResult.ok ⟨[]⟩ ∧
    construct_proof c7Agents c7Env "hold" =
      Except.error (PyErr.indyError "No credentials found for proof") :=
  ⟨rfl, rfl⟩

/-- Environment of the C7 witness: one requested attribute with exactly
one matching credential. -/
def c7wEnv : ConstructProofEnv :=
  { getCreds := .ok ⟨[("attr1", [⟨"ref1"⟩])]⟩, createProof := .ok "proof-1" }

theorem C7_construct_proof_spec_witness :
    construct_proof c7Agents c7wEnv "hold" = Except.ok ⟨"proof-1"⟩ :=
  (C7_construct_proof_spec c7Agents c7wEnv "hold" c7Holder
    ⟨[("attr1", [⟨"ref1"⟩])]⟩ "proof-1" (by decide) rfl rfl rfl).2.2.mpr
    ⟨by decide, by decide⟩

/-!
## Credential issuance (`service.py` `IndyService._issue_credential`)
-/

/-- `connection.py` `ConnectionType`: only TheOrgBook and holder kinds are
accepted by `ConnectionCfg`. -/
inductive ConnectionType where
  | theOrgBook
  | holder
  deriving DecidableEq, Repr

/-- `config.py` `ConnectionCfg`.  The `holder_id` field is modelled from
the spec: the holder-proxy connection kind wraps a local holder agent and
delegates credential-request generation and storage to it (the
`HolderConnection` class lives in `connection.py`, outside the analysed
sources). -/
structure ConnectionCfg where
  connection_id : String
  agent_id : String
  connection_type : ConnectionType
  holder_id : String
  created : Bool
  opened : Bool
  synced : Bool
  deriving DecidableEq, Repr

/-- A minimal JSON value, enough to state credential-payload equalities:
a string, or an object given as a sequence of fields (`empty` /
`field key value rest`). -/
inductive JVal where
  | str (s : String)
  | empty
  | field (key : String) (v : JVal) (rest : JVal)
  deriving DecidableEq, Repr

/-- A one-field JSON object. -/
def jobj1 (key : String) (v : JVal) : JVal := JVal.field key v JVal.empty

/-- `messages.py` `CredentialOffer` as constructed by `_create_cred_offer`:
schema name and version, the parsed offer payload (opaque), and the
recorded credential definition. -/
structure CredentialOffer where
  schema_name : String
  schema_version : Option String
  offer : String
  cred_def : Option String
  deriving DecidableEq, Repr

/-- `messages.py` `CredentialRequest` as constructed by
`_generate_credential_request` or the TheOrgBook connector. -/
structure CredentialRequest where
  cred_offer : CredentialOffer
  data : String
  metadata : String
  deriving DecidableEq, Repr

/-- `messages.py` `Credential` as constructed by `_create_cred`:
`cred_data` holds the parsed credential JSON returned by the issuer
capability's `create_cred`, not the raw attribute mapping passed in. -/
structure Credential where
  schema_name : String
  issuer_did : Option String
  cred_data : JVal
  cred_def : Option String
  cred_req_metadata : String
  cred_revoc_id : Option String
  deriving DecidableEq, Repr

/-- `messages.py` `StoredCredential`: the wallet credential id, the stored
credential, and the result payload returned to the caller. -/
structure StoredCredential where
  cred_id : Option String
  cred : Credential
  result : JVal
  deriving DecidableEq, Repr

/-- External responses for one `_issue_credential` call.  `createCred` is
the issuer capability's `create_cred` as a function of the caller-supplied
raw attribute values it is given (the spec: it combines the request with
the raw values into a signed credential). -/
structure IssueEnv where
  createOffer : CallResult String
  holderCreateReq : CallResult (String × String)
  tobGenReq : CallResult (String × String)
  createCred : JVal → CallResult (JVal × Option String)
  holderStore : CallResult String
  tobStore : CallResult JVal

/-- `config.py` `AgentCfg.find_credential_type`: build the probe
`SchemaCfg(name, version, None, origin_did)` and return the first bound
credential type whose stored definition is `compare`-compatible with
it. -/
def find_credential_type (a : AgentCfg) (name : String)
    (version : Option String) (origin_did : Option String) :
    Option CredType :=
  a.cred_types.find? fun ct =>
    ct.definition.compare ⟨name, version, [], origin_did⟩

/-- `service.py` `IndyService._create_cred_offer`: reads the recorded
ledger schema's sequence number (subscripting a missing ledger schema
raises) and asks the issuer capability for an offer. -/
def create_cred_offer (env : IssueEnv) (cred_type : CredType) :
    Except PyErr CredentialOffer :=
  match cred_type.ledger_schema with
  | none => Except.error PyErr.typeError
  | some _ =>
    match env.createOffer with
    | .fail e => Except.error e
    | .ok offerPayload =>
      Except.ok ⟨cred_type.definition.name, cred_type.definition.version,
        offerPayload, cred_type.cred_def⟩

/-- `service.py` `IndyService._generate_credential_request` (the local
holder side). -/
def generate_credential_request (agents : List AgentCfg) (env : IssueEnv)
    (holder_id : String) (offer : CredentialOffer) :
    Except PyErr CredentialRequest :=
  match agents.find? (fun a => a.agent_id == holder_id) with
  | none => Except.error (PyErr.indyConfigError "Unknown holder id")
  | some holder =>
    if holder.synced = false then
      Except.error (PyErr.indyConfigError "Holder is not yet synchronized")
    else match env.holderCreateReq with
      | .fail e => Except.error e
      | .ok rm => Except.ok ⟨offer, rm.1, rm.2⟩

/-- `service.py` `IndyService._create_cred`: the issuer capability combines
the offer, the request and the caller-supplied raw attribute values into a
signed credential; its parsed JSON becomes the `cred_data` field. -/
def create_cred (env : IssueEnv) (issuer : AgentCfg)
    (request : CredentialRequest) (cred_data : JVal) :
    Except PyErr Credential :=
  match env.createCred cred_data with
  | .fail e => Except.error e
  | .ok cr =>
    Except.ok ⟨request.cred_offer.schema_name, issuer.did, cr.1,
      request.cred_offer.cred_def, request.metadata, cr.2⟩

/-- `service.py` `IndyService._store_credential` (the local holder side):
the flattened result view wraps the stored credential's `cred_data` under
an "attributes" key. -/
def store_credential (agents : List AgentCfg) (env : IssueEnv)
    (holder_id : String) (cred : Credential) :
    Except PyErr StoredCredential :=
  match agents.find? (fun a => a.agent_id == holder_id) with
  | none => Except.error (PyErr.indyConfigError "Unknown holder id")
  | some holder =>
    if holder.synced = false then
      Except.error (PyErr.indyConfigError "Holder is not yet synchronized")
    else match env.holderStore with
      | .fail e => Except.error e
      | .ok cid =>
        Except.ok ⟨some cid, cred, jobj1 "attributes" cred.cred_data⟩

/-- The connection's `generate_credential_request`: the holder-proxy kind
delegates to the local holder agent (modelled from the spec, see
`ConnectionCfg`); the TheOrgBook kind posts to the remote API (`tob.py`),
whose non-success responses raise and are modelled as failures. -/
def conn_generate_credential_request (agents : List AgentCfg)
    (env : IssueEnv) (conn : ConnectionCfg) (offer : CredentialOffer) :
    Except PyErr CredentialRequest :=
  match conn.connection_type with
  | .holder => generate_credential_request agents env conn.holder_id offer
  | .theOrgBook =>
    match env.tobGenReq with
    | .fail e => Except.error e
    | .ok rm => Except.ok ⟨offer, rm.1, rm.2⟩

/-- The connection's `store_credential`: holder-proxy kind delegates to the
local holder agent; TheOrgBook kind stores through the remote API, whose
result payload is returned as-is with no wallet credential id
(`tob.py` `store_credential`). -/
def conn_store_credential (agents : List AgentCfg) (env : IssueEnv)
    (conn : ConnectionCfg) (cred : Credential) :
    Except PyErr StoredCredential :=
  match conn.connection_type with
  | .holder => store_credential agents env conn.holder_id cred
  | .theOrgBook =>
    match env.tobStore with
    | .fail e => Except.error e
    | .ok result => Except.ok ⟨none, cred, result⟩

/-- `service.py` `IndyService._issue_credential`: gate on a known synced
connection and a synced issuer agent, locate the credential type with
`find_credential_type`, then run offer → request → create → store.  A
missing agent id raises a `KeyError` (unreachable through the registration
API). -/
def issue_credential (conns : List ConnectionCfg) (agents : List AgentCfg)
    (env : IssueEnv) (connection_id schema_name : String)
    (schema_version origin_did : Option String) (cred_data : JVal) :
    Except PyErr StoredCredential :=
  match conns.find? (fun c => c.connection_id == connection_id) with
  | none => Except.error (PyErr.indyConfigError "Unknown connection id")
  | some conn =>
    if conn.synced = false then
      Except.error (PyErr.indyConfigError "Connection is not yet synchronized")
    else match agents.find? (fun a => a.agent_id == conn.agent_id) with
      | none => Except.error PyErr.keyError
      | some issuer =>
        if issuer.agent_type ≠ AgentType.issuer then
          Except.error (PyErr.indyConfigError
            "Cannot issue credential from non-issuer agent")
        else if issuer.synced = false then
          Except.error (PyErr.indyConfigError "Issuer is not yet synchronized")
        else match find_credential_type issuer schema_name schema_version
            origin_did with
          | none =>
            Except.error (PyErr.indyConfigError
              "Could not locate credential type")
          | some cred_type =>
            match create_cred_offer env cred_type with
            | .error e => Except.error e
            | .ok cred_offer =>
              match conn_generate_credential_request agents env conn
                  cred_offer with
              | .error e => Except.error e
              | .ok cred_request =>
                match create_cred env issuer cred_request cred_data with
                | .error e => Except.error e
                | .ok cred => conn_store_credential agents env conn cred

/-- The configuration error raised when no credential type matches. -/
def locateErr : PyErr := PyErr.indyConfigError "Could not locate credential type"

/-- The environment's external failures do not themselves carry the
credential-type-lookup error (externals raise their own error kinds). -/
def envAvoidsLocate (env : IssueEnv) : Prop :=
  (∀ e, env.createOffer = CallResult.fail e → e ≠ locateErr) ∧
  (∀ e, env.holderCreateReq = CallResult.fail e → e ≠ locateErr) ∧
  (∀ e, env.tobGenReq = CallResult.fail e → e ≠ locateErr) ∧
  (∀ v e, env.createCred v = CallResult.fail e → e ≠ locateErr) ∧
  (∀ e, env.holderStore = CallResult.fail e → e ≠ locateErr) ∧
  (∀ e, env.tobStore = CallResult.fail e → e ≠ locateErr)

theorem create_cred_offer_err {env : IssueEnv} {ct : CredType} {e : PyErr}
    (ha : envAvoidsLocate env)
    (h : create_cred_offer env ct = Except.error e) : e ≠ locateErr := by
  unfold create_cred_offer at h
  cases hls : ct.ledger_schema with
  | none =>
    simp only [hls] at h
    simp at h
    subst h
    decide
  | some ls =>
    simp only [hls] at h
    cases hco : env.createOffer with
    | fail e2 =>
      simp only [hco] at h
      simp at h
      subst h
      exact ha.1 e2 hco
    | ok o =>
      simp only [hco] at h
      simp at h

theorem generate_credential_request_err {agents : List AgentCfg}
    {env : IssueEnv} {holder_id : String} {offer : CredentialOffer}
    {e : PyErr} (ha : envAvoidsLocate env)
    (h : generate_credential_request agents env holder_id offer =
      Except.error e) : e ≠ locateErr := by
  unfold generate_credential_request at h
  cases hfh : agents.find? (fun a => a.agent_id == holder_id) with
  | none =>
    simp only [hfh] at h
    simp at h
    subst h
    decide
  | some holder =>
    simp only [hfh] at h
    by_cases hs : holder.synced = false
    · rw [if_pos hs] at h
      simp at h
      subst h
      decide
    · rw [if_neg hs] at h
      cases hcr : env.holderCreateReq with
      | fail e2 =>
        simp only [hcr] at h
        simp at h
        subst h
        exact ha.2.1 e2 hcr
      | ok rm =>
        simp only [hcr] at h
        simp at h

theorem conn_generate_credential_request_err {agents : List AgentCfg}
    {env : IssueEnv} {conn : ConnectionCfg} {offer : CredentialOffer}
    {e : PyErr} (ha : envAvoidsLocate env)
    (h : conn_generate_credential_request agents env conn offer =
      Except.error e) : e ≠ locateErr := by
  unfold conn_generate_credential_request at h
  cases hk : conn.connection_type with
  | holder =>
    simp only [hk] at h
    exact generate_credential_request_err ha h
  | theOrgBook =>
    simp only [hk] at h
    cases ht : env.tobGenReq with
    | fail e2 =>
      simp only [ht] at h
      simp at h
      subst h
      exact ha.2.2.1 e2 ht
    | ok rm =>
      simp only [ht] at h
      simp at h

theorem create_cred_err {env : IssueEnv} {issuer : AgentCfg}
    {request : CredentialRequest} {cred_data : JVal} {e : PyErr}
    (ha : envAvoidsLocate env)
    (h : create_cred env issuer request cred_data = Except.error e) :
    e ≠ locateErr := by
  unfold create_cred at h
  cases hcc : env.createCred cred_data with
  | fail e2 =>
    simp only [hcc] at h
    simp at h
    subst h
    exact ha.2.2.2.1 cred_data e2 hcc
  | ok cr =>
    simp only [hcc] at h
    simp at h

theorem store_credential_err {agents : List AgentCfg} {env : IssueEnv}
    {holder_id : String} {cred : Credential} {e : PyErr}
    (ha : envAvoidsLocate env)
    (h : store_credential agents env holder_id cred = Except.error e) :
    e ≠ locateErr := by
  unfold store_credential at h
  cases hfh : agents.find? (fun a => a.agent_id == holder_id) with
  | none =>
    simp only [hfh] at h
    simp at h
    subst h
    decide
  | some holder =>
    simp only [hfh] at h
    by_cases hs : holder.synced = false
    · rw [if_pos hs] at h
      simp at h
      subst h
      decide
    · rw [if_neg hs] at h
      cases hst : env.holderStore with
      | fail e2 =>
        simp only [hst] at h
        simp at h
        subst h
        exact ha.2.2.2.2.1 e2 hst
      | ok cid =>
        simp only [hst] at h
        simp at h

theorem conn_store_credential_err {agents : List AgentCfg} {env : IssueEnv}
    {conn : ConnectionCfg} {cred : Credential} {e : PyErr}
    (ha : envAvoidsLocate env)
    (h : conn_store_credential agents env conn cred = Except.error e) :
    e ≠ locateErr := by
  unfold conn_store_credential at h
  cases hk : conn.connection_type with
  | holder =>
    simp only [hk] at h
    exact store_credential_err ha h
  | theOrgBook =>
    simp only [hk] at h
    cases ht : env.tobStore with
    | fail e2 =>
      simp only [ht] at h
      simp at h
      subst h
      exact ha.2.2.2.2.2 e2 ht
    | ok r =>
      simp only [ht] at h
      simp at h

/-- C8 (amended): through a known synced connection to a synced issuer,
`_issue_credential` locates the credential type with the
wildcard-compatible `compare` rule, not an exact match: the
"Could not locate credential type" configuration error is raised iff no
bound credential type is `compare`-compatible with the request, and the
credential type used is the first compatible one. -/
theorem C8_issue_locates_by_compare
    (conns : List ConnectionCfg) (agents : List AgentCfg) (env : IssueEnv)
    (connection_id schema_name : String)
    (schema_version origin_did : Option String) (cred_data : JVal)
    (conn : ConnectionCfg) (issuer : AgentCfg)
    (hconn : conns.find? (fun c => c.connection_id == connection_id) =
      some conn)
    (hcs : conn.synced = true)
    (hiss : agents.find? (fun a => a.agent_id == conn.agent_id) = some issuer)
    (htype : issuer.agent_type = AgentType.issuer)
    (hsync : issuer.synced = true)
    (henv : envAvoidsLocate env) :
    (issue_credential conns agents env connection_id schema_name
        schema_version origin_did cred_data = Except.error locateErr ↔
      find_credential_type issuer schema_name schema_version origin_did =
        none) ∧
    (∀ ct, find_credential_type issuer schema_name schema_version
        origin_did = some ct →
      ct.definition.compare ⟨schema_name, schema_version, [], origin_did⟩ =
        true) := by
  constructor
  · cases hf : find_credential_type issuer schema_name schema_version
        origin_did with
    | none =>
      refine iff_of_true ?_ rfl
      simp [issue_credential, hconn, hcs, hiss, htype, hsync, hf, locateErr]
    | some ct =>
      refine iff_of_false ?_ (by simp)
      have hred : issue_credential conns agents env connection_id schema_name
          schema_version origin_did cred_data =
          (match create_cred_offer env ct with
          | Except.error e => Except.error e
          | Except.ok cred_offer =>
            match conn_generate_credential_request agents env conn
                cred_offer with
            | Except.error e => Except.error e
            | Except.ok cred_request =>
              match create_cred env issuer cred_request cred_data with
              | Except.error e => Except.error e
              | Except.ok cred =>
                conn_store_credential agents env conn cred) := by
        simp [issue_credential, hconn, hcs, hiss, htype, hsync, hf]
      rw [hred]
      cases hco : create_cred_offer env ct with
      | error e =>
        simp only [hco]
        intro hx
        simp at hx
        exact create_cred_offer_err henv hco hx
      | ok cred_offer =>
        simp only [hco]
        cases hcg : conn_generate_credential_request agents env conn
            cred_offer with
        | error e =>
          simp only [hcg]
          intro hx
          simp at hx
          exact conn_generate_credential_request_err henv hcg hx
        | ok cred_request =>
          simp only [hcg]
          cases hcc : create_cred env issuer cred_request cred_data with
          | error e =>
            simp only [hcc]
            intro hx
            simp at hx
            exact create_cred_err henv hcc hx
          | ok cred =>
            simp only [hcc]
            cases hcs2 : conn_store_credential agents env conn cred with
            | error e =>
              intro hx
              simp at hx
              exact conn_store_credential_err henv hcs2 hx
            | ok stored =>
              intro hx
              simp at hx
  · intro ct hct
    unfold find_credential_type at hct
    have hp := List.find?_some hct
    exact hp

/-- Whether an `Except` result is a success. -/
def exceptIsOk {α : Type} : Except PyErr α → Bool
  | Except.ok _ => true
  | Except.error _ => false

/-- The C8 counterexample's bound credential type: its stored definition
has no version (a wildcard). -/
def ct8 : CredType :=
  ⟨⟨"degree", none, ["name"], none⟩, some ⟨some 5⟩, some "cd"⟩

/-- The C8 issuer: synced, with the version-less credential type bound. -/
def issuer8 : AgentCfg :=
  { agent_id := "iss", agent_type := AgentType.issuer, wallet_id := "w",
    did := some "did-iss", cred_types := [ct8], created := true,
    opened := true, registered := true, synced := true }

/-- The C8 local holder agent. -/
def holder8 : AgentCfg :=
  { agent_id := "hold", agent_type := AgentType.holder, wallet_id := "w2",
    did := some "did-h", cred_types := [], created := true, opened := true,
    registered := true, synced := true }

/-- The C8 connection: a synced holder-proxy connection owned by the
issuer. -/
def conn8 : ConnectionCfg :=
  ⟨"c1", "iss", ConnectionType.holder, "hold", true, true, true⟩

def conns8 : List ConnectionCfg := [conn8]

def agents8 : List AgentCfg := [issuer8, holder8]

/-- All-successful externals for the C8 theorems; `createCred` returns a
signed credential embedding the raw values. -/
def env8 : IssueEnv :=
  { createOffer := .ok "offer-payload"
    holderCreateReq := .ok ("req", "md")
    tobGenReq := .ok ("", "")
    createCred := fun raw =>
      .ok (JVal.field "values" raw (jobj1 "signature" (.str "sig")), none)
    holderStore := .ok "cred-1"
    tobStore := .ok JVal.empty }

theorem env8_avoids : envAvoidsLocate env8 := by
  refine ⟨?_, ?_, ?_, ?_, ?_, ?_⟩
  · intro e h
    simp [env8] at h
  · intro e h
    simp [env8] at h
  · intro e h
    simp [env8] at h
  · intro v e h
    simp [env8] at h
  · intro e h
    simp [env8] at h
  · intro e h
    simp [env8] at h

/-- C8 counterexample: the issuance request names version "1.0" while the
only bound credential type has no version at all, so no bound credential
type has exactly the requested name, version and origin DID; yet
`_issue_credential` proceeds and succeeds, because the lookup uses the
wildcard `compare` rule, refuting "exact match required or fail". -/
theorem C8_issue_exact_match_counterexample :
    exceptIsOk (issue_credential conns8 agents8 env8 "c1" "degree"
      (some "1.0") none JVal.empty) = true ∧
    issuer8.cred_types = [ct8] ∧
    ¬(ct8.definition.name = "degree" ∧ ct8.definition.version = some "1.0" ∧
      ct8.definition.origin_did = none) := by
  refine ⟨rfl, rfl, ?_⟩
  decide

theorem C8_issue_locates_by_compare_witness :
    (issue_credential conns8 agents8 env8 "c1" "degree" (some "1.0") none
        JVal.empty = Except.error locateErr ↔
      find_credential_type issuer8 "degree" (some "1.0") none = none) :=
  (C8_issue_locates_by_compare conns8 agents8 env8 "c1" "degree"
    (some "1.0") none JVal.empty conn8 issuer8 (by decide) rfl (by decide)
    rfl rfl env8_avoids).1

/-- C9 (amended): when every step succeeds with a local holder connection,
the store step yields a `StoredCredential` whose flattened view is
`attributes` wrapping the parsed credential payload returned by the issuer
capability's `create_cred` — the signed credential, not the bare
caller-supplied raw attribute map. -/
theorem C9_store_wraps_agent_credential
    (conns : List ConnectionCfg) (agents : List AgentCfg) (env : IssueEnv)
    (connection_id schema_name : String)
    (schema_version origin_did : Option String) (cred_data : JVal)
    (conn : ConnectionCfg) (issuer holder : AgentCfg) (ct : CredType)
    (ls : LedgerSchema) (offerP : String) (rm : String × String)
    (cr : JVal × Option String) (cid : String)
    (hconn : conns.find? (fun c => c.connection_id == connection_id) =
      some conn)
    (hcs : conn.synced = true)
    (hiss : agents.find? (fun a => a.agent_id == conn.agent_id) = some issuer)
    (htype : issuer.agent_type = AgentType.issuer)
    (hsync : issuer.synced = true)
    (hf : find_credential_type issuer schema_name schema_version origin_did =
      some ct)
    (hls : ct.ledger_schema = some ls)
    (hoffer : env.createOffer = CallResult.ok offerP)
    (hkind : conn.connection_type = ConnectionType.holder)
    (hfh : agents.find? (fun a => a.agent_id == conn.holder_id) = some holder)
    (hhs : holder.synced = true)
    (hreq : env.holderCreateReq = CallResult.ok rm)
    (hcc : env.createCred cred_data = CallResult.ok cr)
    (hst : env.holderStore = CallResult.ok cid) :
    issue_credential conns agents env connection_id schema_name
        schema_version origin_did cred_data =
      Except.ok ⟨some cid,
        ⟨ct.definition.name, issuer.did, cr.1, ct.cred_def, rm.2, cr.2⟩,
        jobj1 "attributes" cr.1⟩ := by
  simp [issue_credential, create_cred_offer, conn_generate_credential_request,
    generate_credential_request, create_cred, conn_store_credential,
    store_credential, hconn, hcs, hiss, htype, hsync, hf, hls, hoffer, hkind,
    hfh, hhs, hreq, hcc, hst]

/-- The raw attribute values supplied by the caller in the C9
counterexample. -/
def rawAttrs9 : JVal :=
  JVal.field "name" (.str "Alice") (jobj1 "year" (.str "2020"))

/-- The signed credential the issuer capability produces from those
values (per the spec, `createCredential` yields a signed credential). -/
def signedCred9 : JVal :=
  JVal.field "values" rawAttrs9 (jobj1 "signature" (.str "sig"))

def ct9 : CredType :=
  ⟨⟨"degree", some "1.0", ["name", "year"], none⟩, some ⟨some 5⟩, some "cd"⟩

def issuer9 : AgentCfg :=
  { agent_id := "iss", agent_type := AgentType.issuer, wallet_id := "w",
    did := some "did-iss", cred_types := [ct9], created := true,
    opened := true, registered := true, synced := true }

def holder9 : AgentCfg :=
  { agent_id := "hold", agent_type := AgentType.holder, wallet_id := "w2",
    did := some "did-h", cred_types := [], created := true, opened := true,
    registered := true, synced := true }

def conn9 : ConnectionCfg :=
  ⟨"c1", "iss", ConnectionType.holder, "hold", true, true, true⟩

def conns9 : List ConnectionCfg := [conn9]

def agents9 : List AgentCfg := [issuer9, holder9]

def env9 : IssueEnv :=
  { createOffer := .ok "offer-payload"
    holderCreateReq := .ok ("req", "md")
    tobGenReq := .ok ("", "")
    createCred := fun raw =>
      .ok (JVal.field "values" raw (jobj1 "signature" (.str "sig")), none)
    holderStore := .ok "cred-1"
    tobStore := .ok JVal.empty }

/-- C9 counterexample: the complete, successful local-holder issuance of
the raw map `name: Alice, year: 2020` yields a flattened view equal to
`attributes` wrapping the signed credential produced by the issuer
capability, which differs from `attributes` wrapping the caller-supplied
raw attribute map. -/
theorem C9_flattened_view_counterexample :
    issue_credential conns9 agents9 env9 "c1" "degree" (some "1.0") none
        rawAttrs9 =
      Except.ok ⟨some "cred-1",
        ⟨"degree", some "did-iss", signedCred9, some "cd", "md", none⟩,
        jobj1 "attributes" signedCred9⟩ ∧
    jobj1 "attributes" signedCred9 ≠ jobj1 "attributes" rawAttrs9 := by
  refine ⟨rfl, ?_⟩
  decide

theorem C9_store_wraps_agent_credential_witness :
    issue_credential conns9 agents9 env9 "c1" "degree" (some "1.0") none
        rawAttrs9 =
      Except.ok ⟨some "cred-1",
        ⟨ct9.definition.name, issuer9.did, signedCred9, ct9.cred_def, "md",
          none⟩,
        jobj1 "attributes" signedCred9⟩ :=
  C9_store_wraps_agent_credential conns9 agents9 env9 "c1" "degree"
    (some "1.0") none rawAttrs9 conn9 issuer9 holder9 ct9 ⟨some 5⟩
    "offer-payload" ("req", "md") (signedCred9, none) "cred-1"
    (by decide) rfl (by decide) rfl rfl (by decide) rfl rfl rfl (by decide)
    rfl rfl rfl rfl

/-!
## The convergence pass (`service.py` `IndyService._service_sync`)
-/

/-- `config.py` `WalletCfg`, reduced to the fields the sync pass reads. -/
structure WalletCfg where
  wallet_id : String
  created : Bool
  deriving DecidableEq, Repr

/-- One schema requirement of a proof spec: its key and the resolved
definition and attributes (absent until resolved). -/
structure ProofSchemaKey where
  name : String
  version : Option String
  did : Option String
  deriving DecidableEq, Repr

structure ProofSchemaEntry where
  key : ProofSchemaKey
  definition : Option SchemaCfg
  attributes : Option (List String)
  deriving DecidableEq, Repr

/-- `config.py` `ProofSpecCfg`. -/
structure ProofSpecCfg where
  spec_id : String
  version : String
  schemas : List ProofSchemaEntry
  synced : Bool
  deriving DecidableEq, Repr

/-- `messages.py` `ResolvedSchema`, without the derived schema id. -/
structure ResolvedSchema where
  issuer_id : String
  schema_name : String
  schema_version : Option String
  origin_did : Option String
  attr_names : List String
  deriving DecidableEq, Repr

/-- `service.py` `IndyService._resolve_schema`: scan the synced agents for
a `compare`-compatible credential type; the resolved origin DID is the
definition's when truthy, else the owning agent's. -/
def resolve_schema (name : String) (version : Option String)
    (did : Option String) : List AgentCfg → Except PyErr ResolvedSchema
  | [] => Except.error (PyErr.indyConfigError "Issuer schema not found")
  | a :: rest =>
    if a.synced then
      match find_credential_type a name version did with
      | some found =>
        Except.ok ⟨a.agent_id, found.definition.name,
          found.definition.version,
          (if optTruthy found.definition.origin_did then
            found.definition.origin_did else a.did),
          found.definition.attr_names⟩
      | none => resolve_schema name version did rest
    else resolve_schema name version did rest

/-- Python truthiness of the optional attributes list (`None` and the
empty list are falsy). -/
def attrListTruthy : Option (List String) → Bool
  | none => false
  | some l => !l.isEmpty

/-- `config.py` `ProofSpecCfg.populate_schema`: fill every unresolved
entry whose key is `compare`-compatible with the found schema, setting its
attributes from the schema when they are falsy. -/
def populate_schema (found : SchemaCfg) (entries : List ProofSchemaEntry) :
    List ProofSchemaEntry :=
  entries.map fun entry =>
    if entry.definition = none then
      if SchemaCfg.compare ⟨entry.key.name, entry.key.version, [],
          entry.key.did⟩ found then
        { entry with
          definition := some found
          attributes := if attrListTruthy entry.attributes then
            entry.attributes else some found.attr_names }
      else entry
    else entry

/-- `config.py` `ProofSpecCfg.get_incomplete_schemas`: the set of keys of
unresolved entries (the Python set is modelled as a deduplicated list in
entry order; set iteration order is unspecified in Python). -/
def get_incomplete_schemas (entries : List ProofSchemaEntry) :
    List ProofSchemaKey :=
  ((entries.filter fun s => s.definition = none).map ProofSchemaEntry.key).dedup

/-- `service.py` `IndyService._sync_proof_spec`: try to resolve each
outstanding key against the issuer agents (`IndyConfigError` from a failed
resolution is swallowed), then recompute `synced`.  This step performs no
external calls and never raises. -/
def sync_proof_spec (agents : List AgentCfg) (spec : ProofSpecCfg) :
    ProofSpecCfg × Bool :=
  let entries := (get_incomplete_schemas spec.schemas).foldl
    (fun entries k =>
      match resolve_schema k.name k.version k.did agents with
      | Except.ok found =>
        populate_schema ⟨found.schema_name, found.schema_version,
          found.attr_names, found.origin_did⟩ entries
      | Except.error _ => entries)
    spec.schemas
  let spec2 : ProofSpecCfg := { spec with
    schemas := entries
    synced := (get_incomplete_schemas entries).isEmpty }
  (spec2, spec2.synced)

/-- External responses available to one `_sync_connection` invocation. -/
structure ConnEnv where
  createConn : CallResult Unit
  openConn : CallResult Unit
  syncConn : CallResult Unit
  deriving DecidableEq, Repr

/-- The connection-level error wrapping of `_sync_connection`: an
`IndyConnectionError` raised while opening or syncing is re-raised as a
`ServiceSyncError` naming the connection; other errors propagate. -/
def wrapConnErr : PyErr → PyErr
  | PyErr.indyConnectionError _ =>
    PyErr.serviceSyncError "Error syncing connection"
  | e => e

/-- `service.py` `IndyService._sync_connection`: look up the owning agent,
skip when synced, silently return "not yet" when the connection is not
created and its agent not synced, else create the connector if needed,
then open and sync it inside the error-wrapping block. -/
def sync_connection (env : ConnEnv) (agents : List AgentCfg)
    (conn : ConnectionCfg) : SyncOut (ConnectionCfg × Bool) :=
  match agents.find? (fun a => a.agent_id == conn.agent_id) with
  | none => ⟨[], (conn, false), some PyErr.keyError⟩
  | some agent =>
    if conn.synced then ⟨[], (conn, true), none⟩
    else if conn.created = false ∧ agent.synced = false then
      ⟨[], (conn, false), none⟩
    else
      match (if conn.created then ([], conn, none) else
        match env.createConn with
        | .fail e =>
          ([⟨conn.connection_id, CallKind.connectionCreate⟩], conn, some e)
        | .ok _ =>
          ([⟨conn.connection_id, CallKind.connectionCreate⟩],
            { conn with created := true }, none) :
        List CallEvent × ConnectionCfg × Option PyErr) with
      | (tr, c1, some e) => ⟨tr, (c1, false), some e⟩
      | (tr, c1, none) =>
        if c1.opened then
          match env.syncConn with
          | .fail e =>
            ⟨tr ++ [⟨conn.connection_id, CallKind.connectionSync⟩],
              (c1, false), some (wrapConnErr e)⟩
          | .ok _ =>
            ⟨tr ++ [⟨conn.connection_id, CallKind.connectionSync⟩],
              ({ c1 with synced := true }, true), none⟩
        else
          match env.openConn with
          | .fail e =>
            ⟨tr ++ [⟨conn.connection_id, CallKind.connectionOpen⟩],
              (c1, false), some (wrapConnErr e)⟩
          | .ok _ =>
            match env.syncConn with
            | .fail e =>
              ⟨tr ++ [⟨conn.connection_id, CallKind.connectionOpen⟩,
                  ⟨conn.connection_id, CallKind.connectionSync⟩],
                ({ c1 with opened := true }, false), some (wrapConnErr e)⟩
            | .ok _ =>
              ⟨tr ++ [⟨conn.connection_id, CallKind.connectionOpen⟩,
                  ⟨conn.connection_id, CallKind.connectionSync⟩],
                ({ c1 with opened := true, synced := true }, true), none⟩

/-- The catalogs of the service (`IndyService.__init__`), in registration
order. -/
structure ServiceState where
  wallets : List WalletCfg
  agents : List AgentCfg
  connections : List ConnectionCfg
  proof_specs : List ProofSpecCfg
  deriving DecidableEq, Repr

/-- External responses available to one `_service_sync` pass: the pool
setup, and per-entity environments keyed by position in the catalog. -/
structure ServiceEnv where
  pool : CallResult Unit
  walletCreate : Nat → CallResult Unit
  agentEnv : Nat → AgentSyncEnv
  connEnv : Nat → ConnEnv
  autoRegister : Bool
  ledgerUrlSet : Bool

/-- The wallet loop of `_service_sync`: create every wallet not yet
created; a raise aborts the loop (and the pass), keeping already-created
wallets. -/
def syncWallets (wenv : Nat → CallResult Unit) :
    Nat → List WalletCfg → List CallEvent × List WalletCfg × Option PyErr
  | _, [] => ([], [], none)
  | i, w :: rest =>
    if w.created then
      ((syncWallets wenv (i + 1) rest).1,
        w :: (syncWallets wenv (i + 1) rest).2.1,
        (syncWallets wenv (i + 1) rest).2.2)
    else
      match wenv i with
      | .fail e => ([⟨w.wallet_id, CallKind.walletCreate⟩], w :: rest, some e)
      | .ok _ =>
        (⟨w.wallet_id, CallKind.walletCreate⟩ ::
            (syncWallets wenv (i + 1) rest).1,
          { w with created := true } :: (syncWallets wenv (i + 1) rest).2.1,
          (syncWallets wenv (i + 1) rest).2.2)

/-- The agent loop of `_service_sync`: each agent is synced in turn;
a raise aborts the loop with the remaining agents untouched.  The wallet
lookup `self._wallets[agent.wallet_id]` is modelled as a plain search
(an unregistered id would raise `KeyError` in Python but is unreachable
through the registration API, which validates it). -/
def syncAgents (aenv : Nat → AgentSyncEnv) (ws : List WalletCfg)
    (autoRegister ledgerUrlSet : Bool) :
    Nat → List AgentCfg →
      List CallEvent × List AgentCfg × Bool × Option PyErr
  | _, [] => ([], [], true, none)
  | i, a :: rest =>
    match sync_agent (aenv i)
        (((ws.find? fun w => w.wallet_id == a.wallet_id).map
          WalletCfg.created).getD false)
        autoRegister ledgerUrlSet a with
    | ⟨tr, (a2, _), some e⟩ => (tr, a2 :: rest, false, some e)
    | ⟨tr, (a2, ok), none⟩ =>
      (tr ++ (syncAgents aenv ws autoRegister ledgerUrlSet (i + 1) rest).1,
        a2 :: (syncAgents aenv ws autoRegister ledgerUrlSet (i + 1) rest).2.1,
        (ok && (syncAgents aenv ws autoRegister ledgerUrlSet
          (i + 1) rest).2.2.1),
        (syncAgents aenv ws autoRegister ledgerUrlSet (i + 1) rest).2.2.2)

/-- The connection loop of `_service_sync`. -/
def syncConnections (cenv : Nat → ConnEnv) (ags : List AgentCfg) :
    Nat → List ConnectionCfg →
      List CallEvent × List ConnectionCfg × Bool × Option PyErr
  | _, [] => ([], [], true, none)
  | i, c :: rest =>
    match sync_connection (cenv i) ags c with
    | ⟨tr, (c2, _), some e⟩ => (tr, c2 :: rest, false, some e)
    | ⟨tr, (c2, ok), none⟩ =>
      (tr ++ (syncConnections cenv ags (i + 1) rest).1,
        c2 :: (syncConnections cenv ags (i + 1) rest).2.1,
        (ok && (syncConnections cenv ags (i + 1) rest).2.2.1),
        (syncConnections cenv ags (i + 1) rest).2.2.2)

/-- The proof-spec loop of `_service_sync`; it never raises. -/
def syncSpecs (ags : List AgentCfg) : List ProofSpecCfg →
    List ProofSpecCfg × Bool
  | [] => ([], true)
  | s :: rest =>
    ((sync_proof_spec ags s).1 :: (syncSpecs ags rest).1,
      ((sync_proof_spec ags s).2 && (syncSpecs ags rest).2))

/-- `service.py` `IndyService._service_sync`: open the pool, create the
wallets, then sync every agent, connection and proof spec in catalog
order, returning the overall synced flag.  Each stage runs only if the
previous stages raised nothing; a raise propagates immediately, with the
state mutated so far. -/
def service_sync (env : ServiceEnv) (st : ServiceState) :
    SyncOut (ServiceState × Bool) :=
  match env.pool with
  | .fail e => ⟨[], (st, false), some e⟩
  | .ok _ =>
    match syncWallets env.walletCreate 0 st.wallets with
    | (trw, ws, some e) => ⟨trw, ({ st with wallets := ws }, false), some e⟩
    | (trw, ws, none) =>
      match syncAgents env.agentEnv ws env.autoRegister env.ledgerUrlSet 0
          st.agents with
      | (tra, ags, _, some e) =>
        ⟨trw ++ tra, ({ st with wallets := ws, agents := ags }, false),
          some e⟩
      | (tra, ags, okA, none) =>
        match syncConnections env.connEnv ags 0 st.connections with
        | (trc, cs, _, some e) =>
          ⟨trw ++ tra ++ trc,
            ({ st with wallets := ws, agents := ags, connections := cs },
              false), some e⟩
        | (trc, cs, okC, none) =>
          ⟨trw ++ tra ++ trc,
            ({ wallets := ws, agents := ags, connections := cs,
                proof_specs := (syncSpecs ags st.proof_specs).1 },
              (okA && okC && (syncSpecs ags st.proof_specs).2)), none⟩

/-- One Boolean status flag never regresses from true. -/
def boolMono (a b : Bool) : Prop := a = true → b = true

/-- A credential type's recorded ledger schema and credential definition
are never overwritten once present. -/
def ctMono (c c' : CredType) : Prop :=
  (∀ x, c.ledger_schema = some x → c'.ledger_schema = some x) ∧
  (∀ x, c.cred_def = some x → c'.cred_def = some x)

/-- An agent's status flags never regress and its recorded publications
are never lost. -/
def agentMono (a a' : AgentCfg) : Prop :=
  boolMono a.created a'.created ∧ boolMono a.opened a'.opened ∧
  boolMono a.registered a'.registered ∧ boolMono a.synced a'.synced ∧
  List.Forall₂ ctMono a.cred_types a'.cred_types

theorem ctMono_refl (c : CredType) : ctMono c c :=
  ⟨fun _ h => h, fun _ h => h⟩

theorem ctMono_trans {a b c : CredType} (h1 : ctMono a b) (h2 : ctMono b c) :
    ctMono a c :=
  ⟨fun x hx => h2.1 x (h1.1 x hx), fun x hx => h2.2 x (h1.2 x hx)⟩

theorem forall2_ctMono_refl (l : List CredType) : List.Forall₂ ctMono l l :=
  List.forall₂_same.2 fun x _ => ctMono_refl x

theorem forall2_ctMono_trans : ∀ {x y z : List CredType},
    List.Forall₂ ctMono x y → List.Forall₂ ctMono y z →
      List.Forall₂ ctMono x z := by
  intro x
  induction x with
  | nil =>
    intro y z h1 h2
    cases h1
    cases h2
    exact List.Forall₂.nil
  | cons a xs ih =>
    intro y z h1 h2
    cases h1 with
    | cons hab h1t =>
      cases h2 with
      | cons hbc h2t => exact List.Forall₂.cons (ctMono_trans hab hbc) (ih h1t h2t)

theorem agentMono_refl (a : AgentCfg) : agentMono a a :=
  ⟨fun h => h, fun h => h, fun h => h, fun h => h,
    forall2_ctMono_refl a.cred_types⟩

theorem agentMono_trans {a b c : AgentCfg} (h1 : agentMono a b)
    (h2 : agentMono b c) : agentMono a c :=
  ⟨fun h => h2.1 (h1.1 h), fun h => h2.2.1 (h1.2.1 h),
    fun h => h2.2.2.1 (h1.2.2.1 h), fun h => h2.2.2.2.1 (h1.2.2.2.1 h),
    forall2_ctMono_trans h1.2.2.2.2 h2.2.2.2.2⟩

theorem ctMono_set_ledger {ct : CredType} (h : ct.ledger_schema = none)
    (v : Option LedgerSchema) : ctMono ct { ct with ledger_schema := v } :=
  ⟨fun x hx => (by rw [h] at hx; cases hx), fun _ hx => hx⟩

theorem ctMono_set_cred_def {ct : CredType} (h : ct.cred_def = none)
    (v : Option String) : ctMono ct { ct with cred_def := v } :=
  ⟨fun _ hx => hx, fun x hx => by rw [h] at hx; cases hx⟩

theorem publishCredDefStep_mono (env : PublishEnv) (owner : String)
    (tr : List CallEvent) (ct1 : CredType) (sj : Option LedgerSchema) :
    ctMono ct1 (publishCredDefStep env owner tr ct1 sj).state := by
  unfold publishCredDefStep
  split_ifs with h
  · cases env.getCredDef with
    | fail e => exact ctMono_refl ct1
    | found cd => exact ctMono_set_cred_def h (some cd)
    | absent =>
      cases sj with
      | none => exact ctMono_refl ct1
      | some s =>
        cases env.sendCredDef with
        | fail e => exact ctMono_refl ct1
        | ok cd => exact ctMono_set_cred_def h cd
  · exact ctMono_refl ct1

theorem publish_schema_mono (env : PublishEnv) (owner : String)
    (ct : CredType) : ctMono ct (publish_schema env owner ct).state := by
  obtain ⟨egs, ess, egcd, escd⟩ := env
  unfold publish_schema
  split_ifs with h1
  · cases egs with
    | fail e => exact ctMono_refl ct
    | found ls =>
      exact ctMono_trans (ctMono_set_ledger h1 (some ls))
        (publishCredDefStep_mono _ owner _ _ (some ls))
    | absent =>
      cases ess with
      | fail e => exact ctMono_refl ct
      | ok resp =>
        by_cases ht : ledgerSchemaTruthy resp = true
        · simp only [ht, if_true]
          exact ctMono_trans (ctMono_set_ledger h1 resp)
            (publishCredDefStep_mono _ owner _ _ resp)
        · simp only [ht, if_false]
          exact ctMono_refl ct
  · exact publishCredDefStep_mono _ owner _ _ none

theorem publishAll_mono (pubs : Nat → PublishEnv) (owner : String) :
    ∀ (cts : List CredType) (i : Nat),
      List.Forall₂ ctMono cts (publishAll pubs owner i cts).2.1 := by
  intro cts
  induction cts with
  | nil => intro i; exact List.Forall₂.nil
  | cons c rest ih =>
    intro i
    unfold publishAll
    rcases hr : publish_schema (pubs i) owner c with ⟨tr1, st1, oe⟩
    have hm := publish_schema_mono (pubs i) owner c
    rw [hr] at hm
    cases oe with
    | some e => exact List.Forall₂.cons hm (forall2_ctMono_refl rest)
    | none => exact List.Forall₂.cons hm (ih (i + 1))

theorem openStage_mono {env : AgentSyncEnv} {a : AgentCfg}
    {tr : List CallEvent} {a2 : AgentCfg} {oe : Option PyErr}
    (h : openStage env a = (tr, a2, oe)) : agentMono a a2 := by
  have base1 : agentMono a { a with created := true } :=
    ⟨fun _ => rfl, fun h => h, fun h => h, fun h => h,
      forall2_ctMono_refl a.cred_types⟩
  have base2 : agentMono a { a with created := true, opened := true } :=
    ⟨fun _ => rfl, fun _ => rfl, fun h => h, fun h => h,
      forall2_ctMono_refl a.cred_types⟩
  unfold openStage at h
  by_cases h1 : a.opened
  · rw [if_pos h1] at h
    obtain ⟨rfl, rfl, rfl⟩ := Prod.mk.injEq .. ▸ h
    exact base1
  · rw [if_neg h1] at h
    cases eo : env.openAgent with
    | fail e =>
      simp only [eo, Prod.mk.injEq] at h
      obtain ⟨rfl, rfl, rfl⟩ := h
      exact base1
    | ok u =>
      by_cases h2 : a.agent_type = AgentType.holder
      · cases els : env.linkSecret with
        | fail e =>
          simp only [eo, els, h2, if_true, Prod.mk.injEq] at h
          obtain ⟨rfl, rfl, rfl⟩ := h
          exact base2
        | ok u2 =>
          simp only [eo, els, h2, if_true, Prod.mk.injEq] at h
          obtain ⟨rfl, rfl, rfl⟩ := h
          exact base2
      · simp only [eo, if_neg h2, Prod.mk.injEq] at h
        obtain ⟨rfl, rfl, rfl⟩ := h
        exact base2

theorem regStage_mono {env : AgentSyncEnv} {ar lus : Bool} {a : AgentCfg}
    {tr : List CallEvent} {a3 : AgentCfg} {oe : Option PyErr}
    (h : regStage env ar lus a = (tr, a3, oe)) : agentMono a a3 := by
  unfold regStage at h
  by_cases h1 : a.registered
  · rw [if_pos h1] at h
    obtain ⟨rfl, rfl, rfl⟩ := Prod.mk.injEq .. ▸ h
    exact agentMono_refl a
  · rw [if_neg h1] at h
    rcases hc : check_registration env.reg ar lus a.agent_id with ⟨trc, oec⟩
    rw [hc] at h
    cases oec with
    | some e =>
      simp only [Prod.mk.injEq] at h
      obtain ⟨rfl, rfl, rfl⟩ := h
      exact agentMono_refl a
    | none =>
      simp only [Prod.mk.injEq] at h
      obtain ⟨rfl, rfl, rfl⟩ := h
      exact ⟨fun h => h, fun h => h, fun _ => rfl, fun h => h,
        forall2_ctMono_refl a.cred_types⟩

theorem sync_agent_mono (env : AgentSyncEnv) (wc ar lus : Bool)
    (a : AgentCfg) : agentMono a (sync_agent env wc ar lus a).state.1 := by
  unfold sync_agent
  split_ifs with hs hw
  · exact agentMono_refl a
  · exact agentMono_refl a
  · rcases ho : openStage env a with ⟨tr, a2, oe⟩
    cases oe with
    | some e => exact openStage_mono ho
    | none =>
      rcases hr : regStage env ar lus a2 with ⟨tr2, a3, oe2⟩
      simp only [hr]
      cases oe2 with
      | some e =>
        have hx : agentMono a a3 :=
          agentMono_trans (openStage_mono ho) (regStage_mono hr)
        exact hx
      | none =>
        rcases hp : publishAll env.publish a3.agent_id 0 a3.cred_types
          with ⟨tr3, cts, oe3⟩
        simp only [hp]
        have hpm := publishAll_mono env.publish a3.agent_id a3.cred_types 0
        rw [hp] at hpm
        have hstep : agentMono a3 { a3 with cred_types := cts } :=
          ⟨fun h => h, fun h => h, fun h => h, fun h => h, hpm⟩
        have hstep2 : agentMono a3
            { a3 with cred_types := cts, synced := true } :=
          ⟨fun h => h, fun h => h, fun h => h, fun _ => rfl, hpm⟩
        cases oe3 with
        | some e =>
          have hx : agentMono a { a3 with cred_types := cts } :=
            agentMono_trans
              (agentMono_trans (openStage_mono ho) (regStage_mono hr)) hstep
          exact hx
        | none =>
          have hx : agentMono a { a3 with cred_types := cts, synced := true } :=
            agentMono_trans
              (agentMono_trans (openStage_mono ho) (regStage_mono hr)) hstep2
          exact hx

theorem mem_append_owner {tr L : List CallEvent} {w : String}
    (hL : ∀ e ∈ L, e.owner = w) :
    ∀ ev ∈ tr ++ L, ev ∈ tr ∨ ev.owner = w := by
  intro ev hev
  rcases List.mem_append.1 hev with h | h
  · exact Or.inl h
  · exact Or.inr (hL ev h)

theorem publishCredDefStep_owner (env : PublishEnv) (owner : String)
    (tr : List CallEvent) (ct1 : CredType) (sj : Option LedgerSchema) :
    ∀ ev ∈ (publishCredDefStep env owner tr ct1 sj).trace,
      ev ∈ tr ∨ ev.owner = owner := by
  unfold publishCredDefStep
  split_ifs with h
  · cases env.getCredDef with
    | fail e => exact mem_append_owner (by simp)
    | found cd => exact mem_append_owner (by simp)
    | absent =>
      cases sj with
      | none => exact mem_append_owner (by simp)
      | some s =>
        cases env.sendCredDef with
        | fail e => exact mem_append_owner (by simp)
        | ok cd => exact mem_append_owner (by simp)
  · intro ev hev
    exact Or.inl hev

theorem publish_schema_owner (env : PublishEnv) (owner : String)
    (ct : CredType) :
    ∀ ev ∈ (publish_schema env owner ct).trace, ev.owner = owner := by
  unfold publish_schema
  split_ifs with h1
  · cases env.getSchema with
    | fail e => simp
    | found ls =>
      intro ev hev
      rcases publishCredDefStep_owner env owner [⟨owner, CallKind.getSchema⟩]
          { ct with ledger_schema := some ls } (some ls) ev hev with h | h
      · simp at h
        rw [h]
      · exact h
    | absent =>
      cases env.sendSchema with
      | fail e => simp
      | ok resp =>
        by_cases ht : ledgerSchemaTruthy resp = true
        · simp only [ht, if_true]
          intro ev hev
          rcases publishCredDefStep_owner env owner
              [⟨owner, CallKind.getSchema⟩, ⟨owner, CallKind.sendSchema⟩]
              { ct with ledger_schema := resp } resp ev hev with h | h
          · simp at h
            rcases h with h | h <;> rw [h]
          · exact h
        · simp only [ht, if_false]
          simp
  · intro ev hev
    rcases publishCredDefStep_owner env owner [] ct none ev hev with h | h
    · simp at h
    · exact h

theorem check_registration_owner (env : RegEnv) (ar lus : Bool)
    (owner : String) :
    ∀ ev ∈ (check_registration env ar lus owner).1, ev.owner = owner := by
  unfold check_registration
  cases env.getNym with
  | fail e => simp
  | ok nymTruthy =>
    by_cases hn : nymTruthy = true
    · simp [hn]
    · by_cases ha : ar = false
      · simp [hn, ha]
      · by_cases hl : lus = false
        · simp [hn, ha, hl]
        · simp only [hn, ha, hl, if_false]
          cases env.register with
          | fail e => cases e <;> simp
          | ok resp =>
            by_cases h4 : resp.truthy = false ∨ optTruthy resp.did = false
            · simp [h4]
            · simp [h4]

theorem openStage_owner {env : AgentSyncEnv} {a : AgentCfg}
    {tr : List CallEvent} {a2 : AgentCfg} {oe : Option PyErr}
    (h : openStage env a = (tr, a2, oe)) :
    ∀ ev ∈ tr, ev.owner = a.agent_id := by
  unfold openStage at h
  by_cases h1 : a.opened
  · rw [if_pos h1] at h
    simp only [Prod.mk.injEq] at h
    obtain ⟨rfl, rfl, rfl⟩ := h
    simp
  · rw [if_neg h1] at h
    cases eo : env.openAgent with
    | fail e =>
      simp only [eo, Prod.mk.injEq] at h
      obtain ⟨rfl, rfl, rfl⟩ := h
      simp
    | ok u =>
      by_cases h2 : a.agent_type = AgentType.holder
      · cases els : env.linkSecret with
        | fail e =>
          simp only [eo, els, h2, if_true, Prod.mk.injEq] at h
          obtain ⟨rfl, rfl, rfl⟩ := h
          simp
        | ok u2 =>
          simp only [eo, els, h2, if_true, Prod.mk.injEq] at h
          obtain ⟨rfl, rfl, rfl⟩ := h
          simp
      · simp only [eo, if_neg h2, Prod.mk.injEq] at h
        obtain ⟨rfl, rfl, rfl⟩ := h
        simp

theorem regStage_owner {env : AgentSyncEnv} {ar lus : Bool} {a : AgentCfg}
    {tr : List CallEvent} {a3 : AgentCfg} {oe : Option PyErr}
    (h : regStage env ar lus a = (tr, a3, oe)) :
    ∀ ev ∈ tr, ev.owner = a.agent_id := by
  unfold regStage at h
  by_cases h1 : a.registered
  · rw [if_pos h1] at h
    simp only [Prod.mk.injEq] at h
    obtain ⟨rfl, rfl, rfl⟩ := h
    simp
  · rw [if_neg h1] at h
    rcases hc : check_registration env.reg ar lus a.agent_id with ⟨trc, oec⟩
    rw [hc] at h
    have hco := check_registration_owner env.reg ar lus a.agent_id
    rw [hc] at hco
    cases oec with
    | some e =>
      simp only [Prod.mk.injEq] at h
      obtain ⟨rfl, rfl, rfl⟩ := h
      exact hco
    | none =>
      simp only [Prod.mk.injEq] at h
      obtain ⟨rfl, rfl, rfl⟩ := h
      exact hco

theorem publishAll_owner (pubs : Nat → PublishEnv) (owner : String) :
    ∀ (cts : List CredType) (i : Nat),
      ∀ ev ∈ (publishAll pubs owner i cts).1, ev.owner = owner := by
  intro cts
  induction cts with
  | nil => intro i ev hev; simp [publishAll] at hev
  | cons c rest ih =>
    intro i ev hev
    unfold publishAll at hev
    rcases hr : publish_schema (pubs i) owner c with ⟨tr1, st1, oe⟩
    rw [hr] at hev
    have hps := publish_schema_owner (pubs i) owner c
    rw [hr] at hps
    cases oe with
    | some e => exact hps ev hev
    | none =>
      have hev' : ev ∈ tr1 ++ (publishAll pubs owner (i + 1) rest).1 := hev
      rcases List.mem_append.1 hev' with h | h
      · exact hps ev h
      · exact ih (i + 1) ev h

theorem sync_agent_owner (env : AgentSyncEnv) (wc ar lus : Bool)
    (a : AgentCfg) :
    ∀ ev ∈ (sync_agent env wc ar lus a).trace, ev.owner = a.agent_id := by
  unfold sync_agent
  split_ifs with hs hw
  · simp
  · simp
  · rcases ho : openStage env a with ⟨tr, a2, oe⟩
    have hO := openStage_owner ho
    have hopen := openStage_preserves ho
    cases oe with
    | some e => exact hO
    | none =>
      rcases hr : regStage env ar lus a2 with ⟨tr2, a3, oe2⟩
      simp only [hr]
      have hR := regStage_owner hr
      have hreg := regStage_preserves hr
      cases oe2 with
      | some e =>
        intro ev hev
        have hev' : ev ∈ tr ++ tr2 := hev
        rcases List.mem_append.1 hev' with h | h
        · exact hO ev h
        · rw [hR ev h, hopen.2.2.1]
      | none =>
        rcases hp : publishAll env.publish a3.agent_id 0 a3.cred_types
          with ⟨tr3, cts, oe3⟩
        simp only [hp]
        have hP := publishAll_owner env.publish a3.agent_id a3.cred_types 0
        rw [hp] at hP
        cases oe3 with
        | some e =>
          intro ev hev
          have hev' : ev ∈ tr ++ tr2 ++ tr3 := hev
          rcases List.mem_append.1 hev' with h12 | h3
          · rcases List.mem_append.1 h12 with h | h
            · exact hO ev h
            · rw [hR ev h, hopen.2.2.1]
          · rw [hP ev h3, hreg.2.2, hopen.2.2.1]
        | none =>
          intro ev hev
          have hev' : ev ∈ tr ++ tr2 ++ tr3 := hev
          rcases List.mem_append.1 hev' with h12 | h3
          · rcases List.mem_append.1 h12 with h | h
            · exact hO ev h
            · rw [hR ev h, hopen.2.2.1]
          · rw [hP ev h3, hreg.2.2, hopen.2.2.1]

theorem syncAgents_abort (aenv : Nat → AgentSyncEnv) (ws : List WalletCfg)
    (ar lus : Bool) :
    ∀ (agents : List AgentCfg) (i : Nat),
      (syncAgents aenv ws ar lus i agents).2.2.2 ≠ none →
      ∃ k, k < agents.length ∧
        (syncAgents aenv ws ar lus i agents).2.1.drop (k + 1) =
          agents.drop (k + 1) ∧
        (∀ ev ∈ (syncAgents aenv ws ar lus i agents).1,
          ev.owner ∈ (agents.take (k + 1)).map AgentCfg.agent_id) ∧
        List.Forall₂ agentMono agents
          (syncAgents aenv ws ar lus i agents).2.1 := by
  intro agents
  induction agents with
  | nil => intro i h; simp [syncAgents] at h
  | cons a rest ih =>
    intro i h
    unfold syncAgents at h ⊢
    rcases hs : sync_agent (aenv i)
        (((ws.find? fun w => w.wallet_id == a.wallet_id).map
          WalletCfg.created).getD false) ar lus a with ⟨tr, ⟨a2, ok2⟩, oe⟩
    rw [hs] at h ⊢
    have hm := sync_agent_mono (aenv i)
      (((ws.find? fun w => w.wallet_id == a.wallet_id).map
        WalletCfg.created).getD false) ar lus a
    rw [hs] at hm
    have how := sync_agent_owner (aenv i)
      (((ws.find? fun w => w.wallet_id == a.wallet_id).map
        WalletCfg.created).getD false) ar lus a
    rw [hs] at how
    cases oe with
    | some e =>
      refine ⟨0, Nat.succ_pos _, rfl, ?_, ?_⟩
      · show ∀ ev ∈ tr,
          ev.owner ∈ ((a :: rest).take (0 + 1)).map AgentCfg.agent_id
        intro ev hev
        have h1 := how ev hev
        simp [h1]
      · exact List.Forall₂.cons hm
          (List.forall₂_same.2 fun x _ => agentMono_refl x)
    | none =>
      have h' : (syncAgents aenv ws ar lus (i + 1) rest).2.2.2 ≠ none := h
      obtain ⟨k, hk, hdrop, htr, hmono⟩ := ih (i + 1) h'
      refine ⟨k + 1, Nat.succ_lt_succ hk, ?_, ?_, ?_⟩
      · show (a2 :: (syncAgents aenv ws ar lus (i + 1) rest).2.1).drop
            (k + 1 + 1) = (a :: rest).drop (k + 1 + 1)
        rw [List.drop_succ_cons, List.drop_succ_cons]
        exact hdrop
      · show ∀ ev ∈ tr ++ (syncAgents aenv ws ar lus (i + 1) rest).1,
          ev.owner ∈ ((a :: rest).take (k + 1 + 1)).map AgentCfg.agent_id
        intro ev hev
        rw [List.take_succ_cons, List.map_cons]
        rcases List.mem_append.1 hev with hl | hrr
        · exact List.mem_cons.2 (Or.inl (how ev hl))
        · exact List.mem_cons.2 (Or.inr (htr ev hrr))
      · exact List.Forall₂.cons hm hmono

theorem service_sync_err_specs (env : ServiceEnv) (st : ServiceState)
    (h : (service_sync env st).err ≠ none) :
    (service_sync env st).state.1.proof_specs = st.proof_specs := by
  obtain ⟨pool, wcf, aef, cef, areg, lurl⟩ := env
  unfold service_sync at h ⊢
  cases pool with
  | fail e => rfl
  | ok u =>
    rcases hw : syncWallets wcf 0 st.wallets with ⟨trw, ws, oew⟩
    rw [hw] at h
    cases oew with
    | some e => rfl
    | none =>
      rcases ha : syncAgents aef ws areg lurl 0 st.agents
        with ⟨tra, ags, okA, oea⟩
      simp only [ha] at h ⊢
      cases oea with
      | some e => rfl
      | none =>
        rcases hc : syncConnections cef ags 0 st.connections
          with ⟨trc, cs, okC, oec⟩
        simp only [hc] at h ⊢
        cases oec with
        | some e => rfl
        | none => exact absurd rfl h

/-- A fresh issuer agent whose registration will fail. -/
def c1A : AgentCfg :=
  ⟨"a1", AgentType.issuer, "w", some "did-a1", [], false, false, false, false⟩

/-- A second, independent fresh issuer agent in the same catalog. -/
def c1B : AgentCfg :=
  ⟨"a2", AgentType.issuer, "w", some "did-a2", [], false, false, false, false⟩

/-- A connection owned by the second agent. -/
def c1Conn : ConnectionCfg :=
  ⟨"c1", "a2", ConnectionType.theOrgBook, "a2", false, false, false⟩

/-- An unsynced proof spec. -/
def c1Spec : ProofSpecCfg :=
  ⟨"ps1", "1.0", [⟨⟨"degree", some "1.0", none⟩, none, none⟩], false⟩

/-- Registration responses for the first agent: the nym is absent and the
register call returns a truthy body without a did, which
`_check_registration` rejects. -/
def c1RegFail : RegEnv := ⟨.ok false, .ok ⟨true, none⟩⟩

/-- Publication responses that would succeed. -/
def c1PubOk : PublishEnv := ⟨.absent, .ok (some ⟨some 1⟩), .absent, .ok (some "cd")⟩

/-- Per-entity environments: everything succeeds except the first agent's
registration. -/
def c1EnvFail : AgentSyncEnv := ⟨.ok (), .ok (), c1RegFail, fun _ => c1PubOk⟩

def c1EnvOk : AgentSyncEnv :=
  ⟨.ok (), .ok (), ⟨.ok true, .ok ⟨true, some "d"⟩⟩, fun _ => c1PubOk⟩

def c1Env : ServiceEnv :=
  ⟨.ok (), fun _ => .ok (), fun i => if i = 0 then c1EnvFail else c1EnvOk,
    fun _ => ⟨.ok (), .ok (), .ok ()⟩, true, true⟩

def c1State : ServiceState := ⟨[⟨"w", true⟩], [c1A, c1B], [c1Conn], [c1Spec]⟩

/-- C1 counterexample: in a pass where only the first agent's DID
registration fails, `_service_sync` raises immediately out of the agent
loop: the second agent's convergence is never attempted (no external call
of the pass is owned by it, and it is returned untouched and unsynced),
and the connection and proof-spec catalogs are returned exactly as they
were, never reached — refuting "each entity's convergence is still
attempted". -/
theorem C1_sync_abort_counterexample :
    service_sync c1Env c1State =
      ⟨[⟨"a1", CallKind.agentOpen⟩, ⟨"a1", CallKind.getNym⟩,
          ⟨"a1", CallKind.registerNym⟩],
        (⟨[⟨"w", true⟩],
          [{ c1A with created := true, opened := true }, c1B],
          [c1Conn], [c1Spec]⟩, false),
        some (PyErr.serviceSyncError "DID registration failed")⟩ ∧
    (∀ ev ∈ (service_sync c1Env c1State).trace, ev.owner = "a1") ∧
    (service_sync c1Env c1State).state.1.agents.drop 1 = [c1B] ∧
    c1B.synced = false ∧
    (service_sync c1Env c1State).state.1.connections = [c1Conn] ∧
    c1Conn.created = false ∧
    (service_sync c1Env c1State).state.1.proof_specs = [c1Spec] ∧
    c1Spec.synced = false := by
  decide

/-- C1: what error scoping `_service_sync` actually provides.  An error
raised while syncing one agent aborts the entire pass, not just that
entity: some position `k` in the agent catalog marks the failure, every
agent after it is returned untouched (not attempted), and every external
call of the loop belongs to an agent up to and including position `k` —
while the already-advanced state of the other entities is never corrupted:
each agent's status flags and recorded publications only ever advance
(`agentMono`), and whenever the pass raises anywhere, the proof-spec
catalog is returned exactly as registered. -/
theorem C1_error_scope :
    (∀ (aenv : Nat → AgentSyncEnv) (ws : List WalletCfg) (ar lus : Bool)
        (agents : List AgentCfg) (i : Nat),
      (syncAgents aenv ws ar lus i agents).2.2.2 ≠ none →
      ∃ k, k < agents.length ∧
        (syncAgents aenv ws ar lus i agents).2.1.drop (k + 1) =
          agents.drop (k + 1) ∧
        (∀ ev ∈ (syncAgents aenv ws ar lus i agents).1,
          ev.owner ∈ (agents.take (k + 1)).map AgentCfg.agent_id) ∧
        List.Forall₂ agentMono agents
          (syncAgents aenv ws ar lus i agents).2.1) ∧
    (∀ (env : ServiceEnv) (st : ServiceState),
      (service_sync env st).err ≠ none →
      (service_sync env st).state.1.proof_specs = st.proof_specs) :=
  ⟨fun aenv ws ar lus agents i h => syncAgents_abort aenv ws ar lus agents i h,
    fun env st h => service_sync_err_specs env st h⟩

/-- Witness for C1: the erroring concrete pass leaves the proof-spec
catalog exactly as registered. -/
theorem C1_error_scope_witness :
    (service_sync c1Env c1State).err ≠ none ∧
    (service_sync c1Env c1State).state.1.proof_specs = c1State.proof_specs :=
  ⟨by decide, C1_error_scope.2 c1Env c1State (by decide)⟩
